import Mathlib

/-!
Verification development for the sun-path core of the window-view repository
(src/logic/SunPath.ts, with the earlier monolithic snapshot of the same module
and its caller src/components/SunPathOverlay.tsx).

Modelling conventions (shallow embedding):
* JavaScript numbers that hold angles, offsets and coordinates are modelled as
  rationals (`ℚ`); millisecond timestamps (JS `Date.getTime()`) are integers.
* `SunCalc.getPosition` (the external suncalc library) is an opaque oracle
  `Int → ℚ → ℚ → ℚ × ℚ` mapping (timestamp, latDeg, lonDeg) to
  (altitude, azimuth); `Math.PI` is carried alongside it as an abstract
  positive rational.  Both live in `Env`.
* `getUTCOffsetHours(timezone, date)` resolves offsets through
  `Date.toLocaleString`, which throws on an unresolvable timezone id; it is
  modelled as an oracle `Int → Except Unit ℚ` (timestamp ↦ offset hours, or an
  exception).  Inside `generateSunPathLines` only the non-throwing executions
  are of interest to the claims, so there the timezone argument is modelled as
  `Option (Int → ℚ)` (the lookup partially applied to the timezone id).
* ECMAScript `Date.UTC` / `getUTCDate` arithmetic is modelled by an explicit
  proleptic-Gregorian calendar (`daysBeforeYear`, `monthLen`, `dateUTC`).
-/

/-- JavaScript `Math.round`: round half toward positive infinity. -/
def jsRound (q : ℚ) : Int := Int.floor (q + 1 / 2)

/-- Gregorian leap-year rule, as written inline in `generateHourLines`
(`(year % 4 === 0 && year % 100 !== 0) || year % 400 === 0`). -/
def isLeap (y : Nat) : Bool := (y % 4 == 0 && y % 100 != 0) || y % 400 == 0

/-- Number of days of the 0-based month `m0` of year `y` (models
`new Date(Date.UTC(year, month + 1, 0)).getUTCDate()`). -/
def monthLen (y : Nat) (m0 : Nat) : Nat :=
  if m0 = 1 then (if isLeap y then 29 else 28)
  else if m0 = 3 ∨ m0 = 5 ∨ m0 = 8 ∨ m0 = 10 then 30
  else 31

/-- Days of year `y` that precede the 0-based month `m0`. -/
def daysBeforeMonth (y : Nat) (m0 : Nat) : Nat :=
  ((List.range m0).map (monthLen y)).sum

/-- Days from 0000-01-01 to the start of year `y` (proleptic Gregorian). -/
def daysBeforeYear (y : Nat) : Nat :=
  365 * y + (y + 3) / 4 - (y + 99) / 100 + (y + 399) / 400

/-- Day number of the Unix epoch 1970-01-01. -/
def epochDay : Int := (daysBeforeYear 1970 : Int)

/-- `Date.UTC(y, m0, d, hour)` in milliseconds since the Unix epoch
(`m0` 0-based month, `d` 1-based day). -/
def dateUTC (y m0 d hour : Nat) : Int :=
  (((daysBeforeYear y + daysBeforeMonth y m0 + (d - 1) : Nat) : Int) - epochDay) * 86400000
    + (hour : Int) * 3600000

/-- Day-of-year (1-based) of the UTC date (y, m0, d); models the source's
`dayOfYear` helper (`floor((d - Jan1) / 86400000) + 1`). -/
def dayOfYear (y m0 d : Nat) : Int :=
  (dateUTC y m0 d 0 - dateUTC y 0 1 0) / 86400000 + 1

/-- Days in a year, as computed inline in `generateHourLines`. -/
def daysInYearOf (y : Nat) : Nat :=
  if (y % 4 == 0 && y % 100 != 0) || y % 400 == 0 then 366 else 365

/-- Helper for `doyToMonthDay`: walk the months of `year` from 0-based month
`m0`, with `rem` months remaining before December clamps the result. -/
def doyToMonthDayGo (year : Nat) : Nat → Nat → Nat → Nat × Nat
  | m0, d, 0 => (m0 + 1, d)
  | m0, d, rem + 1 =>
    if d ≤ monthLen year m0 then (m0 + 1, d)
    else doyToMonthDayGo year (m0 + 1) (d - monthLen year m0) rem

/-- `doyToMonthDay(doy, year)`: convert a 1-based day-of-year to a 1-based
(month, day) pair, models `new Date(Date.UTC(year, 0, doy))` read back through
`getUTCMonth() + 1` / `getUTCDate()` (for day-of-year values inside the year). -/
def doyToMonthDay (doy : Nat) (year : Nat) : Nat × Nat :=
  doyToMonthDayGo year 0 doy 11

-- ---- Data model ----

/-- The external environment of the module: `Math.PI` and the suncalc
`getPosition` oracle (timestamp, latDeg, lonDeg) ↦ (altitude, azimuth). -/
structure Env where
  pi : ℚ
  sun : Int → ℚ → ℚ → ℚ × ℚ

structure SunPathPoint where
  altitude : ℚ
  azimuth : ℚ
deriving DecidableEq, Inhabited

structure DSTHourLabel where
  point : SunPathPoint
  label : String
deriving DecidableEq, Inhabited

structure ExtraLabel where
  point : SunPathPoint
  labelAbove : Option String := none
  labelBelow : Option String := none
deriving DecidableEq, Inhabited

inductive LabelPos where
  | above
  | below
deriving DecidableEq, Inhabited

inductive LineType where
  | month
  | solstice
  | hour
  | hourDst
  | dst
deriving DecidableEq, Inhabited

structure SunPathLine where
  points : List SunPathPoint
  label : String
  labelAbove : Option String := none
  labelBelow : Option String := none
  dstHourLabels : Option (List DSTHourLabel) := none
  dstHourLabelsPosition : Option LabelPos := none
  topLabelPoint : Option SunPathPoint := none
  bottomLabelPoint : Option SunPathPoint := none
  extraLabelPoints : Option (List ExtraLabel) := none
  midLabelPoint : Option SunPathPoint := none
  midLabelPointBelow : Option SunPathPoint := none
  allHourPoints : Option (List (SunPathPoint × Bool)) := none
  type : LineType
deriving DecidableEq, Inhabited

structure DSTTransition where
  doy : Nat
  month : Nat
  day : Nat
  springForward : Bool
  offsetChangeHours : ℚ
deriving DecidableEq, Inhabited

-- ---- Helpers (SunPath.ts) ----

/-- `convertAzimuth`: suncalc azimuth (0 = South) to this system's
(0 = North, clockwise); two sequential conditional adjustments, as in source. -/
def convertAzimuth (env : Env) (suncalcAz : ℚ) : ℚ :=
  let az := suncalcAz + env.pi
  let az2 := if az < 0 then az + 2 * env.pi else az
  if az2 ≥ 2 * env.pi then az2 - 2 * env.pi else az2

/-- `getSunPoint`: query suncalc and convert the azimuth convention. -/
def getSunPoint (env : Env) (date : Int) (latDeg lonDeg : ℚ) : SunPathPoint :=
  let pos := env.sun date latDeg lonDeg
  { altitude := pos.1, azimuth := convertAzimuth env pos.2 }

-- ---- DST transition detection (findDSTTransitions) ----

/-- The list of (0-based month, 1-based day) pairs scanned by the nested
month/day loops of `findDSTTransitions`. -/
def yearDays (year : Nat) : List (Nat × Nat) :=
  ((List.range 12).map (fun month =>
    (List.range' 1 (monthLen year month)).map (fun day => (month, day)))).flatten

/-- Loop body of `findDSTTransitions`: thread the previous offset and the
accumulated transitions through the scanned days; an oracle exception
propagates (the source has no try/catch here). -/
def findDSTGo (offs : Int → Except Unit ℚ) (year : Nat) :
    List (Nat × Nat) → ℚ → List DSTTransition → Except Unit (List DSTTransition)
  | [], _, acc => Except.ok acc
  | (month, day) :: rest, prevOffset, acc =>
    match offs (dateUTC year month day 12) with
    | Except.error e => Except.error e
    | Except.ok offset =>
      let change := offset - prevOffset
      let acc2 :=
        if |offset - prevOffset| > (0.01 : ℚ) then
          acc ++ [{ doy := ((dateUTC year month day 12 - dateUTC year 0 1 0) / 86400000 + 1).toNat,
                    month := month + 1,
                    day := day,
                    springForward := decide (change > 0),
                    offsetChangeHours := change }]
        else acc
      findDSTGo offs year rest offset acc2

/-- `findDSTTransitions(timezone, year)`, with `getUTCOffsetHours(timezone, ·)`
abstracted as the oracle `offs` (which may throw, modelled by `Except`). -/
def findDSTTransitions (offs : Int → Except Unit ℚ) (year : Nat) :
    Except Unit (List DSTTransition) :=
  match offs (dateUTC year 0 1 12) with
  | Except.error e => Except.error e
  | Except.ok prevOffset => findDSTGo offs year (yearDays year) prevOffset []

/-- The call site in src/components/SunPathOverlay.tsx: `findDSTTransitions`
is invoked inside `try { ... } catch { /* location has no DST or lookup
failed */ }`, so on an exception `dstTransitions` stays `undefined`. -/
def detectTransitionsCaught (offs : Int → Except Unit ℚ) (year : Nat) :
    Option (List DSTTransition) :=
  match findDSTTransitions offs year with
  | Except.ok l => some l
  | Except.error _ => none

-- ---- Line generation (generateSunPathLines and its sub-generators) ----

/-- Internal per-call context, as in the refactored module. -/
structure SunPathContext where
  latDeg : ℚ
  lonDeg : ℚ
  year : Nat
  stdOffset : ℚ
  dstAdj : ℚ
  isNorthern : Bool
deriving DecidableEq, Inhabited

/-- The timezone-offset block at the top of `generateSunPathLines`: sample the
offset on Jan 15 and Jul 15 noon; standard offset is the smaller, the DST
adjustment the difference.  `timezone` is the offset lookup for the timezone
id, `none` when no timezone was supplied. -/
def stdOffsetFor (year : Nat) (timezone : Option (Int → ℚ)) : ℚ × ℚ :=
  match timezone with
  | some offs =>
    let winterOff := offs (dateUTC year 0 15 12)
    let summerOff := offs (dateUTC year 6 15 12)
    (min winterOff summerOff, max winterOff summerOff - min winterOff summerOff)
  | none => (0, 0)

/-- `arcForDate`: sweep a calendar date from local standard midnight in
5-minute steps (288 samples), keeping points above the horizon. -/
def arcForDate (env : Env) (ctx : SunPathContext) (month0 day : Nat) : List SunPathPoint :=
  let baseDate := dateUTC ctx.year month0 day 0
  let startMinUTC := jsRound (-ctx.stdOffset * 60)
  (List.range 288).filterMap (fun i =>
    let date := baseDate + (startMinUTC + 5 * (i : Int)) * 60000
    let pt := getSunPoint env date ctx.latDeg ctx.lonDeg
    if pt.altitude > 0 then some pt else none)

/-- `dateAtStdHour`: UTC timestamp of a standard clock hour on a date. -/
def dateAtStdHour (ctx : SunPathContext) (month0 day clockHour : Nat) : Int :=
  let utcTotalMinutes := jsRound ((clockHour : ℚ) * 60 - ctx.stdOffset * 60)
  dateUTC ctx.year month0 day 0 + utcTotalMinutes * 60000

/-- `extraLabelsForDate`: label positions at 9:00 and 15:00 standard time. -/
def extraLabelsForDate (env : Env) (ctx : SunPathContext) (month0 day : Nat)
    (labAbove labBelow : Option String) : List ExtraLabel :=
  ([9, 15] : List Nat).filterMap (fun clockHour =>
    let pt := getSunPoint env (dateAtStdHour ctx month0 day clockHour) ctx.latDeg ctx.lonDeg
    if pt.altitude > 0 then
      some { point := pt, labelAbove := labAbove, labelBelow := labBelow }
    else none)

/-- `midLabelForDate`: midpoint label at solar noon (12:00 standard time). -/
def midLabelForDate (env : Env) (ctx : SunPathContext) (month0 day : Nat) :
    Option SunPathPoint :=
  let pt := getSunPoint env (dateAtStdHour ctx month0 day 12) ctx.latDeg ctx.lonDeg
  if pt.altitude > 0 then some pt else none

/-- `generateSolsticeArcs`: June 21 and December 21 arcs, labels placed by
hemisphere. -/
def generateSolsticeArcs (env : Env) (ctx : SunPathContext) : List SunPathLine :=
  (let pts := arcForDate env ctx 5 21
   if pts.length > 1 then
     let labAbove := if ctx.isNorthern then none else some "6/21"
     let labBelow := if ctx.isNorthern then some "6/21" else none
     [{ points := pts, label := "6/21", labelAbove := labAbove, labelBelow := labBelow,
        extraLabelPoints := some (extraLabelsForDate env ctx 5 21 labAbove labBelow),
        midLabelPoint := midLabelForDate env ctx 5 21,
        type := LineType.solstice }]
   else []) ++
  (let pts := arcForDate env ctx 11 21
   if pts.length > 1 then
     let labAbove := if ctx.isNorthern then some "12/21" else none
     let labBelow := if ctx.isNorthern then none else some "12/21"
     [{ points := pts, label := "12/21", labelAbove := labAbove, labelBelow := labBelow,
        extraLabelPoints := some (extraLabelsForDate env ctx 11 21 labAbove labBelow),
        midLabelPoint := midLabelForDate env ctx 11 21,
        type := LineType.solstice }]
   else [])

/-- `generateIntermediateArcs`: five declination arcs evenly spaced between
the solstices, each carrying its ascending and descending date labels. -/
def generateIntermediateArcs (env : Env) (ctx : SunPathContext) : List SunPathLine :=
  let summerSolsticeDoy := dayOfYear ctx.year 5 21
  let winterSolsticeDoy := dayOfYear ctx.year 11 21
  let halfYearDays := (summerSolsticeDoy - winterSolsticeDoy + 365) % 365
  ((List.range 5).map (fun k0 =>
    let k : Int := (k0 : Int) + 1
    let daysFromWinter := jsRound (((halfYearDays * k : Int) : ℚ) / 6)
    let ascendingDoy := (winterSolsticeDoy + daysFromWinter - 1) % 365 + 1
    let descendingDoy := (winterSolsticeDoy + (365 - daysFromWinter) - 1) % 365 + 1
    let md1 := doyToMonthDay ascendingDoy.toNat ctx.year
    let md2 := doyToMonthDay descendingDoy.toNat ctx.year
    let ascLabel := toString md1.1 ++ "/" ++ toString md1.2
    let descLabel := toString md2.1 ++ "/" ++ toString md2.2
    let labAbove := if ctx.isNorthern then descLabel else ascLabel
    let labBelow := if ctx.isNorthern then ascLabel else descLabel
    let pts := arcForDate env ctx (md1.1 - 1) md1.2
    if pts.length > 1 then
      let descExtras := extraLabelsForDate env ctx (md2.1 - 1) md2.2 (some labAbove) none
      let ascExtras := extraLabelsForDate env ctx (md1.1 - 1) md1.2 none (some labBelow)
      [{ points := pts, label := ascLabel,
         labelAbove := some labAbove, labelBelow := some labBelow,
         extraLabelPoints := some (descExtras ++ ascExtras),
         midLabelPoint := midLabelForDate env ctx (md2.1 - 1) md2.2,
         midLabelPointBelow := midLabelForDate env ctx (md1.1 - 1) md1.2,
         type := LineType.month }]
    else [])).flatten

/-- Pointwise array update used to model the `isDSTDay[d] = true` writes. -/
def updTrue (f : Nat → Bool) (d : Nat) : Nat → Bool := Function.update f d true

/-- The `isDSTDay` array of `generateHourLines`, modelled as a function
`Nat → Bool` (the loop only ever reads indices 1..daysInYear, which the
update-fold reproduces exactly): with at least 2 transitions and both a
spring-forward and a fall-back entry present, mark [springDoy, fallDoy) when
spring precedes fall, or the wrap-around ranges [springDoy, daysInYear] and
[1, fallDoy) otherwise. -/
def isDSTDay (daysInYear : Nat) (dstTransitions : Option (List DSTTransition)) :
    Nat → Bool :=
  match dstTransitions with
  | none => fun _ => false
  | some ts =>
    if ts.length ≥ 2 then
      match ts.find? (fun t => t.springForward) with
      | none => fun _ => false
      | some sp =>
        match ts.find? (fun t => !t.springForward) with
        | none => fun _ => false
        | some fb =>
          if sp.doy < fb.doy then
            (List.range' sp.doy (fb.doy - sp.doy)).foldl updTrue (fun _ => false)
          else
            (List.range' 1 (fb.doy - 1)).foldl updTrue
              ((List.range' sp.doy (daysInYear + 1 - sp.doy)).foldl updTrue (fun _ => false))
    else fun _ => false

/-- The per-hour sampling loop of `generateHourLines`: one sample per day of
the year at the given standard clock hour, keeping above-horizon points tagged
with the day's DST status. -/
def hourTaggedPts (env : Env) (ctx : SunPathContext)
    (dstTransitions : Option (List DSTTransition)) (clockHour : Nat) :
    List (SunPathPoint × Bool) :=
  let daysInYear := daysInYearOf ctx.year
  (List.range' 1 daysInYear).filterMap (fun doy =>
    let md := doyToMonthDay doy ctx.year
    let date := dateAtStdHour ctx (md.1 - 1) md.2 clockHour
    let pt := getSunPoint env date ctx.latDeg ctx.lonDeg
    if pt.altitude > 0 then some (pt, isDSTDay daysInYear dstTransitions doy) else none)

/-- The segment-splitting loop of `generateHourLines`: `cur` is the open
segment (always non-empty); on a DST-status change the transition point is
appended to the closing segment and also starts the next one. -/
def splitGo (cur : List SunPathPoint × Bool) :
    List (SunPathPoint × Bool) → List (List SunPathPoint × Bool)
  | [] => [cur]
  | tp :: rest =>
    if cur.2 != tp.2 then
      (cur.1 ++ [tp.1], cur.2) :: splitGo ([tp.1], tp.2) rest
    else
      splitGo (cur.1 ++ [tp.1], cur.2) rest

/-- Split a tagged point sequence into maximal runs of equal DST status,
duplicating each boundary point into both adjacent segments. -/
def splitSegments (tps : List (SunPathPoint × Bool)) : List (List SunPathPoint × Bool) :=
  match tps with
  | [] => []
  | tp :: rest => splitGo ([tp.1], tp.2) rest

/-- The segment-emission loop of `generateHourLines`: segments with fewer than
2 points are skipped; hour labels and solstice-endpoint markers go only on the
first standard-time segment (`labelEmitted`); the full tagged point list goes
only on the first emitted segment (`arrowsEmitted`). -/
def emitHourSegs (stdLabel dstLabel : String) (dstAdjPos : Bool)
    (topOpt botOpt : Option SunPathPoint) (allPoints : List (SunPathPoint × Bool)) :
    List (List SunPathPoint × Bool) → Bool → Bool → List SunPathLine
  | [], _, _ => []
  | seg :: rest, arrowsEmitted, labelEmitted =>
    if seg.1.length < 2 then
      emitHourSegs stdLabel dstLabel dstAdjPos topOpt botOpt allPoints rest
        arrowsEmitted labelEmitted
    else if seg.2 then
      { points := seg.1, label := dstLabel,
        allHourPoints := if arrowsEmitted then none else some allPoints,
        type := LineType.hourDst } ::
      emitHourSegs stdLabel dstLabel dstAdjPos topOpt botOpt allPoints rest
        true labelEmitted
    else
      { points := seg.1, label := stdLabel,
        labelAbove := if labelEmitted then none else some (if dstAdjPos then dstLabel else stdLabel),
        labelBelow := if labelEmitted then none else some stdLabel,
        topLabelPoint := if labelEmitted then none else topOpt,
        bottomLabelPoint := if labelEmitted then none else botOpt,
        allHourPoints := if arrowsEmitted then none else some allPoints,
        type := LineType.hour } ::
      emitHourSegs stdLabel dstLabel dstAdjPos topOpt botOpt allPoints rest
        true true

/-- Body of the `clockHour` loop of `generateHourLines`. -/
def hourLinesForHour (env : Env) (ctx : SunPathContext)
    (dstTransitions : Option (List DSTTransition)) (clockHour : Nat) : List SunPathLine :=
  let taggedPts := hourTaggedPts env ctx dstTransitions clockHour
  if taggedPts.length < 2 then []
  else
    let segments := splitSegments taggedPts
    let stdLabel := toString clockHour ++ ":00"
    let dstClockHour : Int := (clockHour : Int) + jsRound ctx.dstAdj
    let dstLabel := toString dstClockHour ++ ":00"
    let junPos := getSunPoint env (dateAtStdHour ctx 5 21 clockHour) ctx.latDeg ctx.lonDeg
    let decPos := getSunPoint env (dateAtStdHour ctx 11 21 clockHour) ctx.latDeg ctx.lonDeg
    let topPoint := if junPos.altitude > decPos.altitude then junPos else decPos
    let bottomPoint := if junPos.altitude > decPos.altitude then decPos else junPos
    emitHourSegs stdLabel dstLabel (decide (ctx.dstAdj > 0))
      (if topPoint.altitude > 0 then some topPoint else none)
      (if bottomPoint.altitude > 0 then some bottomPoint else none)
      taggedPts segments false false

/-- `generateHourLines`: hourly cross-lines for clock hours 0..24. -/
def generateHourLines (env : Env) (ctx : SunPathContext)
    (dstTransitions : Option (List DSTTransition)) : List SunPathLine :=
  ((List.range 25).map (hourLinesForHour env ctx dstTransitions)).flatten

/-- Body of the transition loop of `generateDSTTransitionLines`: the
transition-day arc with shifted hour labels, or `none` when fewer than 2
points clear the horizon. -/
def dstLineFor (env : Env) (ctx : SunPathContext) (dst : DSTTransition) :
    Option SunPathLine :=
  let md := doyToMonthDay dst.doy ctx.year
  let pts := arcForDate env ctx (md.1 - 1) md.2
  if pts.length > 1 then
    let dateLabel := toString dst.month ++ "/" ++ toString dst.day
    let dstHourLabels := (List.range 25).filterMap (fun clockHour =>
      let pos := getSunPoint env (dateAtStdHour ctx (md.1 - 1) md.2 clockHour)
        ctx.latDeg ctx.lonDeg
      if pos.altitude > 0 then
        let afterClockHour : Int :=
          if dst.springForward then (clockHour : Int) + jsRound ctx.dstAdj
          else (clockHour : Int)
        if 0 ≤ afterClockHour ∧ afterClockHour ≤ 24 then
          some { point := pos, label := toString afterClockHour ++ ":00" }
        else none
      else none)
    if dst.springForward then
      some { points := pts, label := dateLabel, labelBelow := some dateLabel,
             extraLabelPoints :=
               some (extraLabelsForDate env ctx (md.1 - 1) md.2 none (some dateLabel)),
             dstHourLabels := some dstHourLabels,
             dstHourLabelsPosition := some LabelPos.above,
             midLabelPoint := midLabelForDate env ctx (md.1 - 1) md.2,
             type := LineType.dst }
    else
      some { points := pts, label := dateLabel, labelAbove := some dateLabel,
             extraLabelPoints :=
               some (extraLabelsForDate env ctx (md.1 - 1) md.2 (some dateLabel) none),
             dstHourLabels := some dstHourLabels,
             dstHourLabelsPosition := some LabelPos.below,
             midLabelPoint := midLabelForDate env ctx (md.1 - 1) md.2,
             type := LineType.dst }
  else none

/-- `generateDSTTransitionLines`: one arc per supplied transition whose day
clears the horizon at 2 or more samples. -/
def generateDSTTransitionLines (env : Env) (ctx : SunPathContext)
    (dstTransitions : Option (List DSTTransition)) : List SunPathLine :=
  match dstTransitions with
  | some ts => ts.filterMap (dstLineFor env ctx)
  | none => []

/-- `generateSunPathLines` (refactored module): derive the context once, then
concatenate the four sub-generators in order. -/
def generateSunPathLines (env : Env) (latDeg lonDeg : ℚ) (year : Nat)
    (dstTransitions : Option (List DSTTransition)) (timezone : Option (Int → ℚ)) :
    List SunPathLine :=
  let so := stdOffsetFor year timezone
  let ctx : SunPathContext :=
    { latDeg := latDeg, lonDeg := lonDeg, year := year,
      stdOffset := so.1, dstAdj := so.2, isNorthern := decide (latDeg ≥ 0) }
  generateSolsticeArcs env ctx ++ generateIntermediateArcs env ctx
    ++ generateHourLines env ctx dstTransitions
    ++ generateDSTTransitionLines env ctx dstTransitions

-- ---- Legacy monolithic snapshot (src/unnamed/part_003) ----

/-!
The earlier snapshot keeps `generateSunPathLines` as one monolithic function
whose helpers are closures over `latDeg`, `lonDeg`, `year` and `stdOffset`;
the embedding below passes those captured variables explicitly.  The segment
split/emission loops and the calendar helpers are character-for-character
identical in the two snapshots and are shared (`splitSegments`,
`emitHourSegs`, `isDSTDay`, `doyToMonthDay`, `dayOfYear`, `getSunPoint`).
The snapshot's `intermediateDates` accumulator is written to but never read
(dead code) and is omitted.
-/

namespace Legacy

/-- Closure `arcForDate` of the monolithic snapshot. -/
def arcForDate (env : Env) (latDeg lonDeg : ℚ) (year : Nat) (stdOffset : ℚ)
    (month0 day : Nat) : List SunPathPoint :=
  let baseDate := dateUTC year month0 day 0
  let startMinUTC := jsRound (-stdOffset * 60)
  (List.range 288).filterMap (fun i =>
    let date := baseDate + (startMinUTC + 5 * (i : Int)) * 60000
    let pt := getSunPoint env date latDeg lonDeg
    if pt.altitude > 0 then some pt else none)

/-- Closure `dateAtStdHour` of the monolithic snapshot. -/
def dateAtStdHour (year : Nat) (stdOffset : ℚ) (month0 day clockHour : Nat) : Int :=
  let utcTotalMinutes := jsRound ((clockHour : ℚ) * 60 - stdOffset * 60)
  dateUTC year month0 day 0 + utcTotalMinutes * 60000

/-- Closure `extraLabelsForDate` of the monolithic snapshot. -/
def extraLabelsForDate (env : Env) (latDeg lonDeg : ℚ) (year : Nat) (stdOffset : ℚ)
    (month0 day : Nat) (labAbove labBelow : Option String) : List ExtraLabel :=
  ([9, 15] : List Nat).filterMap (fun clockHour =>
    let pt := getSunPoint env (dateAtStdHour year stdOffset month0 day clockHour) latDeg lonDeg
    if pt.altitude > 0 then
      some { point := pt, labelAbove := labAbove, labelBelow := labBelow }
    else none)

/-- Closure `midLabelForDate` of the monolithic snapshot. -/
def midLabelForDate (env : Env) (latDeg lonDeg : ℚ) (year : Nat) (stdOffset : ℚ)
    (month0 day : Nat) : Option SunPathPoint :=
  let pt := getSunPoint env (dateAtStdHour year stdOffset month0 day 12) latDeg lonDeg
  if pt.altitude > 0 then some pt else none

/-- The monolithic `generateSunPathLines` of the earlier snapshot: the four
sections push into one list in sequence. -/
def generateSunPathLines (env : Env) (latDeg lonDeg : ℚ) (year : Nat)
    (dstTransitions : Option (List DSTTransition)) (timezone : Option (Int → ℚ)) :
    List SunPathLine :=
  let so :=
    match timezone with
    | some offs =>
      let winterOff := offs (dateUTC year 0 15 12)
      let summerOff := offs (dateUTC year 6 15 12)
      (min winterOff summerOff, max winterOff summerOff - min winterOff summerOff)
    | none => ((0 : ℚ), (0 : ℚ))
  let stdOffset := so.1
  let dstAdj := so.2
  let isNorthern := decide (latDeg ≥ 0)
  -- 1. Solstice arcs
  ((let pts := arcForDate env latDeg lonDeg year stdOffset 5 21
    if pts.length > 1 then
      let labAbove := if isNorthern then none else some "6/21"
      let labBelow := if isNorthern then some "6/21" else none
      [{ points := pts, label := "6/21", labelAbove := labAbove, labelBelow := labBelow,
         extraLabelPoints :=
           some (extraLabelsForDate env latDeg lonDeg year stdOffset 5 21 labAbove labBelow),
         midLabelPoint := midLabelForDate env latDeg lonDeg year stdOffset 5 21,
         type := LineType.solstice }]
    else []) ++
   (let pts := arcForDate env latDeg lonDeg year stdOffset 11 21
    if pts.length > 1 then
      let labAbove := if isNorthern then some "12/21" else none
      let labBelow := if isNorthern then none else some "12/21"
      [{ points := pts, label := "12/21", labelAbove := labAbove, labelBelow := labBelow,
         extraLabelPoints :=
           some (extraLabelsForDate env latDeg lonDeg year stdOffset 11 21 labAbove labBelow),
         midLabelPoint := midLabelForDate env latDeg lonDeg year stdOffset 11 21,
         type := LineType.solstice }]
    else [])) ++
  -- 2. Five intermediate arcs
  (let summerSolsticeDoy := dayOfYear year 5 21
   let winterSolsticeDoy := dayOfYear year 11 21
   let halfYearDays := (summerSolsticeDoy - winterSolsticeDoy + 365) % 365
   ((List.range 5).map (fun k0 =>
     let k : Int := (k0 : Int) + 1
     let daysFromWinter := jsRound (((halfYearDays * k : Int) : ℚ) / 6)
     let ascendingDoy := (winterSolsticeDoy + daysFromWinter - 1) % 365 + 1
     let descendingDoy := (winterSolsticeDoy + (365 - daysFromWinter) - 1) % 365 + 1
     let md1 := doyToMonthDay ascendingDoy.toNat year
     let md2 := doyToMonthDay descendingDoy.toNat year
     let ascLabel := toString md1.1 ++ "/" ++ toString md1.2
     let descLabel := toString md2.1 ++ "/" ++ toString md2.2
     let labAbove := if isNorthern then descLabel else ascLabel
     let labBelow := if isNorthern then ascLabel else descLabel
     let pts := arcForDate env latDeg lonDeg year stdOffset (md1.1 - 1) md1.2
     if pts.length > 1 then
       let descExtras :=
         extraLabelsForDate env latDeg lonDeg year stdOffset (md2.1 - 1) md2.2 (some labAbove) none
       let ascExtras :=
         extraLabelsForDate env latDeg lonDeg year stdOffset (md1.1 - 1) md1.2 none (some labBelow)
       [{ points := pts, label := ascLabel,
          labelAbove := some labAbove, labelBelow := some labBelow,
          extraLabelPoints := some (descExtras ++ ascExtras),
          midLabelPoint := midLabelForDate env latDeg lonDeg year stdOffset (md2.1 - 1) md2.2,
          midLabelPointBelow := midLabelForDate env latDeg lonDeg year stdOffset (md1.1 - 1) md1.2,
          type := LineType.month }]
     else [])).flatten) ++
  -- 3. Hourly cross-lines
  (((List.range 25).map (fun clockHour =>
    let daysInYear := daysInYearOf year
    let taggedPts := (List.range' 1 daysInYear).filterMap (fun doy =>
      let md := doyToMonthDay doy year
      let date := dateAtStdHour year stdOffset (md.1 - 1) md.2 clockHour
      let pt := getSunPoint env date latDeg lonDeg
      if pt.altitude > 0 then some (pt, isDSTDay daysInYear dstTransitions doy) else none)
    if taggedPts.length < 2 then []
    else
      let segments := splitSegments taggedPts
      let stdLabel := toString clockHour ++ ":00"
      let dstClockHour : Int := (clockHour : Int) + jsRound dstAdj
      let dstLabel := toString dstClockHour ++ ":00"
      let junPos := getSunPoint env (dateAtStdHour year stdOffset 5 21 clockHour) latDeg lonDeg
      let decPos := getSunPoint env (dateAtStdHour year stdOffset 11 21 clockHour) latDeg lonDeg
      let topPoint := if junPos.altitude > decPos.altitude then junPos else decPos
      let bottomPoint := if junPos.altitude > decPos.altitude then decPos else junPos
      emitHourSegs stdLabel dstLabel (decide (dstAdj > 0))
        (if topPoint.altitude > 0 then some topPoint else none)
        (if bottomPoint.altitude > 0 then some bottomPoint else none)
        taggedPts segments false false)).flatten) ++
  -- 4. DST transition lines
  (match dstTransitions with
   | some ts => ts.filterMap (fun dst =>
      let md := doyToMonthDay dst.doy year
      let pts := arcForDate env latDeg lonDeg year stdOffset (md.1 - 1) md.2
      if pts.length > 1 then
        let dateLabel := toString dst.month ++ "/" ++ toString dst.day
        let dstHourLabels := (List.range 25).filterMap (fun clockHour =>
          let pos := getSunPoint env (dateAtStdHour year stdOffset (md.1 - 1) md.2 clockHour)
            latDeg lonDeg
          if pos.altitude > 0 then
            let afterClockHour : Int :=
              if dst.springForward then (clockHour : Int) + jsRound dstAdj
              else (clockHour : Int)
            if 0 ≤ afterClockHour ∧ afterClockHour ≤ 24 then
              some { point := pos, label := toString afterClockHour ++ ":00" }
            else none
          else none)
        if dst.springForward then
          some { points := pts, label := dateLabel, labelBelow := some dateLabel,
                 extraLabelPoints :=
                   some (extraLabelsForDate env latDeg lonDeg year stdOffset (md.1 - 1) md.2
                     none (some dateLabel)),
                 dstHourLabels := some dstHourLabels,
                 dstHourLabelsPosition := some LabelPos.above,
                 midLabelPoint := midLabelForDate env latDeg lonDeg year stdOffset (md.1 - 1) md.2,
                 type := LineType.dst }
        else
          some { points := pts, label := dateLabel, labelAbove := some dateLabel,
                 extraLabelPoints :=
                   some (extraLabelsForDate env latDeg lonDeg year stdOffset (md.1 - 1) md.2
                     (some dateLabel) none),
                 dstHourLabels := some dstHourLabels,
                 dstHourLabelsPosition := some LabelPos.below,
                 midLabelPoint := midLabelForDate env latDeg lonDeg year stdOffset (md.1 - 1) md.2,
                 type := LineType.dst }
      else none)
   | none => [])

end Legacy

-- ---- Observation helpers for stating the claims ----

def extraPoint (e : ExtraLabel) : SunPathPoint := e.point

def dstHourLabelPoint (h : DSTHourLabel) : SunPathPoint := h.point

/-- Every sky point carried by a line, across all its optional fields. -/
def linePoints (l : SunPathLine) : List SunPathPoint :=
  l.points ++ l.topLabelPoint.toList ++ l.bottomLabelPoint.toList
    ++ (l.extraLabelPoints.getD []).map extraPoint
    ++ l.midLabelPoint.toList ++ l.midLabelPointBelow.toList
    ++ (l.dstHourLabels.getD []).map dstHourLabelPoint
    ++ (l.allHourPoints.getD []).map Prod.fst

/-- A point as emitted by the generator: above the horizon and produced by
`getSunPoint` at some instant. -/
def goodPoint (env : Env) (lat lon : ℚ) (p : SunPathPoint) : Prop :=
  0 < p.altitude ∧ ∃ t : Int, p = getSunPoint env t lat lon

/-- Concatenate segment point lists, dropping the head of every segment after
the first: at each DST-status change the transition point is duplicated into
both adjacent segments, so this removes exactly the duplicated boundary
points. -/
def dedupJoin : List (List SunPathPoint) → List SunPathPoint
  | [] => []
  | s :: rest => s ++ (rest.map List.tail).flatten

/-- The emission loop keeps a segment iff it has at least 2 points. -/
def keepSeg (s : List SunPathPoint × Bool) : Bool := decide (2 ≤ s.1.length)

def isHourLine (l : SunPathLine) : Bool := l.type == LineType.hour

def isNotHourDst (l : SunPathLine) : Bool := !(l.type == LineType.hourDst)

def isDstLine (l : SunPathLine) : Bool := l.type == LineType.dst

/-- A supplied transition produces a `dst` arc iff its day-of-year's arc keeps
at least 2 above-horizon samples. -/
def dstArcQualifies (env : Env) (ctx : SunPathContext) (dst : DSTTransition) : Bool :=
  decide (1 < (arcForDate env ctx ((doyToMonthDay dst.doy ctx.year).1 - 1)
    (doyToMonthDay dst.doy ctx.year).2).length)

-- ---- Generic list lemmas ----

theorem headD_mem {α : Type} (l : List α) (d : α) (h : l ≠ []) : l.headD d ∈ l := by
  cases l with
  | nil => exact absurd rfl h
  | cons a as => exact List.mem_cons_self a as

theorem length_filterMap_eq_countP {α β : Type} (f : α → Option β) (l : List α) :
    (l.filterMap f).length = l.countP (fun a => (f a).isSome) := by
  induction l with
  | nil => rfl
  | cons a as ih =>
    cases h : f a with
    | none => simp [List.filterMap_cons, h, List.countP_cons, ih]
    | some b => simp [List.filterMap_cons, h, List.countP_cons, ih]

-- ---- C8: the refactored module equals the monolithic snapshot ----

/-- C8: for every input and the same suncalc / timezone-offset oracles, the
refactored `generateSunPathLines` returns exactly the same ordered list of
`SunPathLine` records (same points, labels, optional fields and types) as the
monolithic snapshot's `generateSunPathLines`. -/
theorem c8_refactor_equiv (env : Env) (latDeg lonDeg : ℚ) (year : Nat)
    (dstTransitions : Option (List DSTTransition)) (timezone : Option (Int → ℚ)) :
    Legacy.generateSunPathLines env latDeg lonDeg year dstTransitions timezone =
      generateSunPathLines env latDeg lonDeg year dstTransitions timezone := rfl

-- ---- Segment structure lemmas ----

theorem splitGo_snd (tps : List (SunPathPoint × Bool)) :
    ∀ cur s, s ∈ splitGo cur tps → s.2 = cur.2 ∨ ∃ tp ∈ tps, s.2 = tp.2 := by
  induction tps with
  | nil =>
    intro cur s h
    simp only [splitGo, List.mem_singleton] at h
    subst h
    exact Or.inl rfl
  | cons tp rest ih =>
    intro cur s h
    unfold splitGo at h
    split at h
    · rcases List.mem_cons.mp h with h1 | h1
      · subst h1; exact Or.inl rfl
      · rcases ih _ _ h1 with h2 | ⟨tp2, hm, he⟩
        · exact Or.inr ⟨tp, List.mem_cons_self _ _, h2⟩
        · exact Or.inr ⟨tp2, List.mem_cons_of_mem _ hm, he⟩
    · rcases ih _ _ h with h2 | ⟨tp2, hm, he⟩
      · exact Or.inl h2
      · exact Or.inr ⟨tp2, List.mem_cons_of_mem _ hm, he⟩

theorem emitHourSegs_all_std (stdL dstL : String) (pos : Bool)
    (top bot : Option SunPathPoint) (allP : List (SunPathPoint × Bool))
    (segs : List (List SunPathPoint × Bool)) :
    ∀ a b l, (∀ s ∈ segs, s.2 = false) →
      l ∈ emitHourSegs stdL dstL pos top bot allP segs a b → l.type = LineType.hour := by
  induction segs with
  | nil =>
    intro a b l _ h
    simp [emitHourSegs] at h
  | cons seg rest ih =>
    intro a b l hall h
    unfold emitHourSegs at h
    split at h
    · exact ih _ _ _ (fun s hs => hall s (List.mem_cons_of_mem _ hs)) h
    · split at h
      · have hseg := hall seg (List.mem_cons_self _ _)
        simp_all
      · rcases List.mem_cons.mp h with h1 | h1
        · subst h1; rfl
        · exact ih _ _ _ (fun s hs => hall s (List.mem_cons_of_mem _ hs)) h1

theorem hourTagged_none_false (env : Env) (ctx : SunPathContext) (clockHour : Nat)
    (tp : SunPathPoint × Bool) (h : tp ∈ hourTaggedPts env ctx none clockHour) :
    tp.2 = false := by
  unfold hourTaggedPts at h
  rw [List.mem_filterMap] at h
  obtain ⟨doy, _, hf⟩ := h
  dsimp only at hf
  split at hf
  · cases hf; rfl
  · cases hf

theorem splitSegments_none_false (env : Env) (ctx : SunPathContext) (clockHour : Nat) :
    ∀ s ∈ splitSegments (hourTaggedPts env ctx none clockHour), s.2 = false := by
  intro s hs
  unfold splitSegments at hs
  rcases htp : hourTaggedPts env ctx none clockHour with _ | ⟨tp, rest⟩
  · rw [htp] at hs; cases hs
  · rw [htp] at hs
    rcases splitGo_snd rest _ _ hs with h1 | ⟨tp2, hm, he⟩
    · rw [h1]
      exact hourTagged_none_false env ctx clockHour tp (htp ▸ List.mem_cons_self _ _)
    · rw [he]
      exact hourTagged_none_false env ctx clockHour tp2 (htp ▸ List.mem_cons_of_mem _ hm)

theorem hourLines_none_type (env : Env) (ctx : SunPathContext) (l : SunPathLine)
    (h : l ∈ generateHourLines env ctx none) : l.type = LineType.hour := by
  unfold generateHourLines at h
  rw [List.mem_flatten] at h
  obtain ⟨lines, hl, hm⟩ := h
  rw [List.mem_map] at hl
  obtain ⟨ch, _, rfl⟩ := hl
  unfold hourLinesForHour at hm
  dsimp only at hm
  split at hm
  · cases hm
  · exact emitHourSegs_all_std _ _ _ _ _ _ _ _ _ _ (splitSegments_none_false env ctx ch) hm

theorem mem_solstice_type (env : Env) (ctx : SunPathContext) (l : SunPathLine)
    (h : l ∈ generateSolsticeArcs env ctx) : l.type = LineType.solstice := by
  unfold generateSolsticeArcs at h
  rcases List.mem_append.mp h with h1 | h1 <;> dsimp only at h1 <;> split at h1 <;>
    simp only [List.mem_singleton, List.not_mem_nil] at h1
  · subst h1; rfl
  · subst h1; rfl

theorem mem_intermediate_type (env : Env) (ctx : SunPathContext) (l : SunPathLine)
    (h : l ∈ generateIntermediateArcs env ctx) : l.type = LineType.month := by
  unfold generateIntermediateArcs at h
  rw [List.mem_flatten] at h
  obtain ⟨lines, hl, hm⟩ := h
  rw [List.mem_map] at hl
  obtain ⟨k0, _, rfl⟩ := hl
  dsimp only at hm
  split at hm
  · rcases List.mem_singleton.mp hm with rfl; rfl
  · cases hm

theorem generate_none_no_dst (env : Env) (lat lon : ℚ) (year : Nat)
    (tz : Option (Int → ℚ)) :
    ∀ l ∈ generateSunPathLines env lat lon year none tz,
      l.type ≠ LineType.hourDst ∧ l.type ≠ LineType.dst := by
  intro l h
  unfold generateSunPathLines at h
  simp only [List.append_assoc, List.mem_append] at h
  rcases h with h | h | h | h
  · rw [mem_solstice_type _ _ _ h]; exact ⟨by simp, by simp⟩
  · rw [mem_intermediate_type _ _ _ h]; exact ⟨by simp, by simp⟩
  · rw [hourLines_none_type _ _ _ h]; exact ⟨by simp, by simp⟩
  · simp only [generateDSTTransitionLines] at h; cases h

-- ---- C1: findDSTTransitions on a throwing offset lookup ----

/-- An offset lookup that cannot resolve the timezone: every call throws. -/
def badOffs : Int → Except Unit ℚ := fun _ => Except.error ()

/-- C1 counterexample: when the UTC-offset lookup throws, `findDSTTransitions`
does NOT return an empty list — it propagates the error (there is no try/catch
inside `findDSTTransitions`). -/
theorem c1_counterexample :
    findDSTTransitions badOffs 2024 = Except.error () ∧
      findDSTTransitions badOffs 2024 ≠ Except.ok [] := by
  refine ⟨rfl, ?_⟩
  intro h
  rw [show findDSTTransitions badOffs 2024 = Except.error () from rfl] at h
  cases h

/-- C1 (amended): when the UTC-offset lookup throws, `findDSTTransitions`
propagates the error; its caller (SunPathOverlay.tsx) wraps the call in
try/catch, leaving the transition list undefined, so the generator runs with
no transitions and emits no DST-specific (`hour-dst` or `dst`) lines — DST
output is skipped without error at the caller, not inside the detector. -/
theorem c1_amended (offs : Int → Except Unit ℚ) (year : Nat) (e : Unit)
    (h : findDSTTransitions offs year = Except.error e) :
    detectTransitionsCaught offs year = none ∧
      ∀ env lat lon tz l, l ∈ generateSunPathLines env lat lon year none tz →
        l.type ≠ LineType.hourDst ∧ l.type ≠ LineType.dst := by
  refine ⟨?_, fun env lat lon tz l hl => generate_none_no_dst env lat lon year tz l hl⟩
  unfold detectTransitionsCaught
  rw [h]

theorem c1_witness : detectTransitionsCaught badOffs 2024 = none :=
  (c1_amended badOffs 2024 () rfl).1

-- ---- C4: the DST day interval ----

theorem foldl_updTrue_range' (n : Nat) :
    ∀ (s : Nat) (f : Nat → Bool) (d : Nat),
      ((List.range' s n).foldl updTrue f) d = (decide (s ≤ d ∧ d < s + n) || f d) := by
  induction n with
  | zero =>
    intro s f d
    simp
  | succ n ih =>
    intro s f d
    rw [List.range'_succ, List.foldl_cons, ih (s + 1) (updTrue f s) d]
    unfold updTrue
    rw [Function.update_apply]
    by_cases h : d = s
    · subst h
      simp
    · simp only [h, if_false]
      have he : decide (s + 1 ≤ d ∧ d < s + 1 + n) = decide (s ≤ d ∧ d < s + (n + 1)) := by
        apply decide_eq_decide.mpr
        constructor <;> (intro hh; omega)
      rw [he]

theorem two_le_length_of_mem_ne {α : Type} {a b : α} {l : List α}
    (ha : a ∈ l) (hb : b ∈ l) (hne : a ≠ b) : 2 ≤ l.length := by
  cases l with
  | nil => cases ha
  | cons x xs =>
    cases xs with
    | nil =>
      simp only [List.mem_singleton] at ha hb
      subst ha; subst hb
      exact absurd rfl hne
    | cons y ys =>
      simp only [List.length_cons]
      omega

/-- C4: with a spring-forward day `s` and fall-back day `f` in the transition
list (first of each kind), a day-of-year `d` is tagged DST exactly when
`d ∈ [s, f)` if `s < f`, and exactly when `d ≥ s ∨ d < f` if `f < s`
(southern-hemisphere ordering); with no such pair, no day is tagged DST. -/
theorem c4_dst_day_rule (daysInYear : Nat) (ts : List DSTTransition) (d : Nat)
    (hd1 : 1 ≤ d) (hd2 : d ≤ daysInYear) :
    (∀ sp fb, ts.find? (fun t => t.springForward) = some sp →
        ts.find? (fun t => !t.springForward) = some fb →
        ((sp.doy < fb.doy →
            (isDSTDay daysInYear (some ts) d = true ↔ sp.doy ≤ d ∧ d < fb.doy)) ∧
         (fb.doy < sp.doy →
            (isDSTDay daysInYear (some ts) d = true ↔ sp.doy ≤ d ∨ d < fb.doy)))) ∧
    ((ts.find? (fun t => t.springForward) = none ∨
        ts.find? (fun t => !t.springForward) = none) →
      isDSTDay daysInYear (some ts) d = false) := by
  constructor
  · intro sp fb hs hf
    have hsp : sp ∈ ts := List.mem_of_find?_eq_some hs
    have hfb : fb ∈ ts := List.mem_of_find?_eq_some hf
    have hspT : sp.springForward = true := by simpa using List.find?_some hs
    have hfbF : fb.springForward = false := by
      have := List.find?_some hf
      simpa using this
    have hne : sp ≠ fb := by
      intro h
      rw [h, hfbF] at hspT
      cases hspT
    have hlen : ts.length ≥ 2 := two_le_length_of_mem_ne hsp hfb hne
    constructor
    · intro hlt
      simp only [isDSTDay, hs, hf, hlen, if_true, if_pos hlt]
      rw [foldl_updTrue_range']
      simp only [Bool.or_false, decide_eq_true_eq]
      omega
    · intro hgt
      have hnlt : ¬ sp.doy < fb.doy := by omega
      simp only [isDSTDay, hs, hf, hlen, if_true, if_neg hnlt]
      rw [foldl_updTrue_range', foldl_updTrue_range']
      simp only [Bool.or_false, Bool.or_eq_true, decide_eq_true_eq]
      omega
  · intro h
    rcases h with h | h
    · simp [isDSTDay, h]
    · rcases hsp : ts.find? (fun t => t.springForward) with _ | sp2
      · simp [isDSTDay, hsp]
      · simp [isDSTDay, hsp, h]

def ts4 : List DSTTransition :=
  [{ doy := 74, month := 3, day := 15, springForward := true, offsetChangeHours := 1 },
   { doy := 309, month := 11, day := 5, springForward := false, offsetChangeHours := -1 }]

theorem c4_witness : isDSTDay 365 (some ts4) 100 = true :=
  (((c4_dst_day_rule 365 ts4 100 (by decide) (by decide)).1
      { doy := 74, month := 3, day := 15, springForward := true, offsetChangeHours := 1 }
      { doy := 309, month := 11, day := 5, springForward := false, offsetChangeHours := -1 }
      (by decide) (by decide)).1 (by decide)).mpr (by decide)

-- ---- C10: no transition on New Year's Day ----

theorem findDST_doy_val (y m d : Nat) (hd : 1 ≤ d) :
    ((dateUTC y m d 12 - dateUTC y 0 1 0) / 86400000 + 1).toNat = daysBeforeMonth y m + d := by
  have h0 : daysBeforeMonth y 0 = 0 := rfl
  have h1 : dateUTC y m d 12 - dateUTC y 0 1 0
      = ((daysBeforeMonth y m + (d - 1) : Nat) : Int) * 86400000 + 43200000 := by
    unfold dateUTC
    rw [h0]
    push_cast [Nat.cast_sub hd]
    ring
  rw [h1]
  have h2 : (((daysBeforeMonth y m + (d - 1) : Nat) : Int) * 86400000 + 43200000) / 86400000
      = ((daysBeforeMonth y m + (d - 1) : Nat) : Int) := by
    rw [add_comm]
    rw [Int.add_mul_ediv_right _ _ (by norm_num : (86400000 : Int) ≠ 0)]
    norm_num
  rw [h2]
  omega

theorem findDSTGo_doy_ne (offs : Int → Except Unit ℚ) (year : Nat) :
    ∀ (days : List (Nat × Nat)) (prev : ℚ) (acc l : List DSTTransition),
      (∀ t ∈ acc, t.doy ≠ 1) →
      (∀ md ∈ days, 1 ≤ md.2 ∧ 2 ≤ daysBeforeMonth year md.1 + md.2) →
      findDSTGo offs year days prev acc = Except.ok l →
      ∀ t ∈ l, t.doy ≠ 1 := by
  intro days
  induction days with
  | nil =>
    intro prev acc l hacc _ h
    cases h
    exact hacc
  | cons md rest ih =>
    obtain ⟨month, day⟩ := md
    intro prev acc l hacc hdays h
    unfold findDSTGo at h
    rcases ho : offs (dateUTC year month day 12) with e | offset
    · rw [ho] at h; cases h
    · rw [ho] at h
      dsimp only at h
      refine ih _ _ _ ?_ (fun md2 hm => hdays md2 (List.mem_cons_of_mem _ hm)) h
      split
      · intro t ht
        rcases List.mem_append.mp ht with ht1 | ht1
        · exact hacc t ht1
        · rw [List.mem_singleton] at ht1
          subst ht1
          have hh1 : 1 ≤ day := (hdays (month, day) (List.mem_cons_self _ _)).1
          have hh2 : 2 ≤ daysBeforeMonth year month + day :=
            (hdays (month, day) (List.mem_cons_self _ _)).2
          show ((dateUTC year month day 12 - dateUTC year 0 1 0) / 86400000 + 1).toNat ≠ 1
          rw [findDST_doy_val year month day hh1]
          omega
      · exact hacc

theorem yearDays_eq_cons (year : Nat) :
    yearDays year = ((0 : Nat), (1 : Nat)) ::
      (((List.range' 2 30).map (fun day => ((0 : Nat), day))) ++
        ((List.range' 1 11).map (fun month =>
          (List.range' 1 (monthLen year month)).map (fun day => (month, day)))).flatten) := by
  unfold yearDays
  rw [List.range_eq_range']
  rw [show List.range' 0 12 = 0 :: List.range' 1 11 from rfl]
  rw [List.map_cons, List.flatten_cons]
  rw [show monthLen year 0 = 31 from rfl]
  rw [show List.range' 1 31 = 1 :: List.range' 2 30 from rfl]
  rw [List.map_cons, List.cons_append]

theorem tailDays_prop (year : Nat) :
    ∀ md ∈ (((List.range' 2 30).map (fun day => ((0 : Nat), day))) ++
      ((List.range' 1 11).map (fun month =>
        (List.range' 1 (monthLen year month)).map (fun day => (month, day)))).flatten),
      1 ≤ md.2 ∧ 2 ≤ daysBeforeMonth year md.1 + md.2 := by
  intro md hmd
  rcases List.mem_append.mp hmd with h | h
  · rw [List.mem_map] at h
    obtain ⟨day, hd, rfl⟩ := h
    rw [List.mem_range'_1] at hd
    refine ⟨by omega, ?_⟩
    show 2 ≤ daysBeforeMonth year 0 + day
    have h0 : daysBeforeMonth year 0 = 0 := rfl
    omega
  · rw [List.mem_flatten] at h
    obtain ⟨lm, hlm, hm⟩ := h
    rw [List.mem_map] at hlm
    obtain ⟨month, hmonth, rfl⟩ := hlm
    rw [List.mem_map] at hm
    obtain ⟨day, hday, rfl⟩ := hm
    rw [List.mem_range'_1] at hmonth hday
    refine ⟨by omega, ?_⟩
    have h31 : 31 ≤ daysBeforeMonth year month := by
      have hmem : monthLen year 0 ∈ (List.range month).map (monthLen year) :=
        List.mem_map_of_mem _ (List.mem_range.mpr (by omega))
      have hs := List.single_le_sum (l := (List.range month).map (monthLen year))
        (fun x _ => Nat.zero_le x) _ hmem
      rw [show monthLen year 0 = 31 from rfl] at hs
      exact hs
    show 2 ≤ daysBeforeMonth year month + day
    omega

/-- C10: for every year and every UTC-offset oracle, `findDSTTransitions`
never returns a transition with day-of-year 1: the initial previous offset is
sampled at UTC noon of January 1 of the same year, so January 1's offset is
compared against itself and a change taking effect on New Year's Day is never
recorded. -/
theorem c10_no_new_year_transition (offs : Int → Except Unit ℚ) (year : Nat)
    (l : List DSTTransition) (h : findDSTTransitions offs year = Except.ok l) :
    ∀ t ∈ l, t.doy ≠ 1 := by
  unfold findDSTTransitions at h
  rcases h0 : offs (dateUTC year 0 1 12) with e | prev
  · rw [h0] at h; cases h
  · rw [h0] at h
    rw [yearDays_eq_cons] at h
    unfold findDSTGo at h
    rw [h0] at h
    dsimp only at h
    have hcond : ¬ (|prev - prev| > (0.01 : ℚ)) := by
      rw [sub_self, abs_zero]
      norm_num
    rw [if_neg hcond] at h
    exact findDSTGo_doy_ne offs year _ prev [] l (by intro t ht; cases ht)
      (tailDays_prop year) h

def offs10 : Int → Except Unit ℚ :=
  fun t => Except.ok (if dateUTC 2023 2 10 12 ≤ t then 1 else 0)

set_option maxRecDepth 100000 in
set_option maxHeartbeats 4000000 in
theorem c10_witness :
    ({ doy := 69, month := 3, day := 10, springForward := true,
       offsetChangeHours := 1 } : DSTTransition).doy ≠ 1 :=
  c10_no_new_year_transition offs10 2023
    [{ doy := 69, month := 3, day := 10, springForward := true, offsetChangeHours := 1 }]
    (by with_unfolding_all rfl)
    { doy := 69, month := 3, day := 10, springForward := true, offsetChangeHours := 1 }
    (List.mem_singleton.mpr rfl)

-- ---- C2: segments reconstruct the unsplit sweep ----

theorem tail_flatten_eq_dedupJoin_tail (L : List (List SunPathPoint))
    (h : ∀ s ∈ L, s ≠ []) : (L.map List.tail).flatten = (dedupJoin L).tail := by
  cases L with
  | nil => rfl
  | cons s rest =>
    have hs := h s (List.mem_cons_self _ _)
    cases s with
    | nil => exact absurd rfl hs
    | cons a as => simp [dedupJoin]

theorem emitHourSegs_points (stdL dstL : String) (pos : Bool)
    (top bot : Option SunPathPoint) (allP : List (SunPathPoint × Bool)) :
    ∀ (segs : List (List SunPathPoint × Bool)) (a b : Bool),
      (emitHourSegs stdL dstL pos top bot allP segs a b).map SunPathLine.points
        = (segs.filter keepSeg).map Prod.fst := by
  intro segs
  induction segs with
  | nil => intro a b; rfl
  | cons seg rest ih =>
    intro a b
    unfold emitHourSegs
    by_cases h : seg.1.length < 2
    · rw [if_pos h, ih]
      have hk : keepSeg seg = false := by
        simp only [keepSeg, decide_eq_false_iff_not]
        omega
      simp [List.filter_cons, hk]
    · rw [if_neg h]
      have hk : keepSeg seg = true := by
        simp only [keepSeg, decide_eq_true_eq]
        omega
      cases hs2 : seg.2 with
      | true => simp [List.filter_cons, hk, hs2, ih]
      | false => simp [List.filter_cons, hk, hs2, ih]

theorem splitGo_dedupJoin :
    ∀ (tps : List (SunPathPoint × Bool)) (cur : List SunPathPoint × Bool),
      cur.1 ≠ [] → (2 ≤ cur.1.length ∨ tps ≠ []) →
      dedupJoin (((splitGo cur tps).filter keepSeg).map Prod.fst)
        = cur.1 ++ tps.map Prod.fst := by
  intro tps
  induction tps with
  | nil =>
    intro cur hne h2
    rcases h2 with h2 | h2
    · have hk : keepSeg cur = true := by
        simp only [keepSeg, decide_eq_true_eq]
        omega
      simp [splitGo, List.filter_cons, hk, dedupJoin]
    · exact absurd rfl h2
  | cons tp rest ih =>
    intro cur hne h2
    unfold splitGo
    have hlpos : 0 < cur.1.length := List.length_pos.mpr hne
    cases hst : (cur.2 != tp.2) with
    | true =>
      simp only [if_true]
      have hk : keepSeg (cur.1 ++ [tp.1], cur.2) = true := by
        simp only [keepSeg, decide_eq_true_eq, List.length_append, List.length_singleton]
        omega
      rw [List.filter_cons, hk, List.map_cons]
      show (cur.1 ++ [tp.1]) ++
          ((((splitGo ([tp.1], tp.2) rest).filter keepSeg).map Prod.fst).map List.tail).flatten
        = cur.1 ++ (tp :: rest).map Prod.fst
      cases rest with
      | nil =>
        have hk2 : keepSeg ([tp.1], tp.2) = false := by
          simp [keepSeg]
        simp [splitGo, List.filter_cons, hk2]
      | cons tp2 rest2 =>
        have hS := ih ([tp.1], tp.2) (by simp) (Or.inr (by simp))
        have hnz : ∀ s ∈ ((splitGo ([tp.1], tp.2) (tp2 :: rest2)).filter keepSeg).map Prod.fst,
            s ≠ [] := by
          intro s hs
          rw [List.mem_map] at hs
          obtain ⟨sg, hsg, rfl⟩ := hs
          rw [List.mem_filter] at hsg
          have hsg2 := hsg.2
          simp only [keepSeg, decide_eq_true_eq] at hsg2
          intro hnil
          rw [hnil] at hsg2
          simp at hsg2
        rw [tail_flatten_eq_dedupJoin_tail _ hnz, hS]
        simp
    | false =>
      simp only [Bool.false_eq_true, if_false]
      have hih := ih (cur.1 ++ [tp.1], cur.2) (by simp)
        (Or.inl (by simp only [List.length_append, List.length_singleton]; omega))
      rw [hih]
      simp

/-- C2: for every clock hour whose sweep yields at least one DST-tagged
segment, concatenating the point sequences of all emitted segments of that
hour in order, with the duplicated boundary point at each DST-status change
removed (`dedupJoin` drops the head of every segment after the first),
reproduces exactly the full above-horizon point sequence of the unsplit
hourly sweep. -/
theorem c2_segments_reconstruct (env : Env) (ctx : SunPathContext)
    (dstT : Option (List DSTTransition)) (clockHour : Nat)
    (h : ∃ l ∈ hourLinesForHour env ctx dstT clockHour, l.type = LineType.hourDst) :
    dedupJoin ((hourLinesForHour env ctx dstT clockHour).map SunPathLine.points)
      = (hourTaggedPts env ctx dstT clockHour).map Prod.fst := by
  obtain ⟨l, hl, _⟩ := h
  unfold hourLinesForHour at hl ⊢
  dsimp only at hl ⊢
  split at hl
  · cases hl
  · rename_i hlen
    rw [if_neg hlen]
    rw [emitHourSegs_points]
    rcases htp : hourTaggedPts env ctx dstT clockHour with _ | ⟨t1, rest⟩
    · rw [htp] at hlen
      simp at hlen
    · rcases rest with _ | ⟨t2, rest2⟩
      · rw [htp] at hlen
        simp at hlen
      · unfold splitSegments
        rw [splitGo_dedupJoin (t2 :: rest2) ([t1.1], t1.2) (by simp) (Or.inr (by simp))]
        simp

def env0 : Env := { pi := 3, sun := fun _ _ _ => (1, 0) }

def ctx0 : SunPathContext :=
  { latDeg := 0, lonDeg := 0, year := 2023, stdOffset := 0, dstAdj := 0, isNorthern := true }

set_option maxRecDepth 100000 in
set_option maxHeartbeats 4000000 in
theorem c2_witness :
    dedupJoin ((hourLinesForHour env0 ctx0 (some ts4) 12).map SunPathLine.points)
      = (hourTaggedPts env0 ctx0 (some ts4) 12).map Prod.fst :=
  c2_segments_reconstruct env0 ctx0 (some ts4) 12 (by with_unfolding_all decide)

-- ---- Point-origin lemmas for the emitted structures ----

theorem arcForDate_good (env : Env) (ctx : SunPathContext) (m0 d : Nat) :
    ∀ p ∈ arcForDate env ctx m0 d, goodPoint env ctx.latDeg ctx.lonDeg p := by
  intro p hp
  unfold arcForDate at hp
  rw [List.mem_filterMap] at hp
  obtain ⟨i, _, hf⟩ := hp
  dsimp only at hf
  split at hf
  · rename_i hpos
    cases hf
    exact ⟨hpos, _, rfl⟩
  · cases hf

theorem extraLabelsForDate_good (env : Env) (ctx : SunPathContext) (m0 d : Nat)
    (labA labB : Option String) :
    ∀ e ∈ extraLabelsForDate env ctx m0 d labA labB,
      goodPoint env ctx.latDeg ctx.lonDeg e.point := by
  intro e he
  unfold extraLabelsForDate at he
  rw [List.mem_filterMap] at he
  obtain ⟨ch, _, hf⟩ := he
  dsimp only at hf
  split at hf
  · rename_i hpos
    cases hf
    exact ⟨hpos, _, rfl⟩
  · cases hf

theorem midLabelForDate_good (env : Env) (ctx : SunPathContext) (m0 d : Nat) :
    ∀ p, midLabelForDate env ctx m0 d = some p → goodPoint env ctx.latDeg ctx.lonDeg p := by
  intro p hp
  unfold midLabelForDate at hp
  dsimp only at hp
  split at hp
  · rename_i hpos
    cases hp
    exact ⟨hpos, _, rfl⟩
  · cases hp

theorem hourTaggedPts_good (env : Env) (ctx : SunPathContext)
    (dstT : Option (List DSTTransition)) (clockHour : Nat) :
    ∀ tp ∈ hourTaggedPts env ctx dstT clockHour,
      goodPoint env ctx.latDeg ctx.lonDeg tp.1 := by
  intro tp htp
  unfold hourTaggedPts at htp
  rw [List.mem_filterMap] at htp
  obtain ⟨doy, _, hf⟩ := htp
  dsimp only at hf
  split at hf
  · rename_i hpos
    cases hf
    exact ⟨hpos, _, rfl⟩
  · cases hf

theorem splitGo_pts (tps : List (SunPathPoint × Bool)) :
    ∀ cur s, s ∈ splitGo cur tps → ∀ p ∈ s.1, p ∈ cur.1 ∨ ∃ tp ∈ tps, p = tp.1 := by
  induction tps with
  | nil =>
    intro cur s hs p hp
    simp only [splitGo, List.mem_singleton] at hs
    subst hs
    exact Or.inl hp
  | cons tp rest ih =>
    intro cur s hs p hp
    unfold splitGo at hs
    split at hs
    · rcases List.mem_cons.mp hs with h1 | h1
      · subst h1
        rcases List.mem_append.mp hp with h2 | h2
        · exact Or.inl h2
        · rw [List.mem_singleton] at h2
          exact Or.inr ⟨tp, List.mem_cons_self _ _, h2⟩
      · rcases ih _ _ h1 p hp with h2 | ⟨tp2, hm, he⟩
        · rw [List.mem_singleton] at h2
          exact Or.inr ⟨tp, List.mem_cons_self _ _, h2⟩
        · exact Or.inr ⟨tp2, List.mem_cons_of_mem _ hm, he⟩
    · rcases ih _ _ hs p hp with h2 | ⟨tp2, hm, he⟩
      · rcases List.mem_append.mp h2 with h3 | h3
        · exact Or.inl h3
        · rw [List.mem_singleton] at h3
          exact Or.inr ⟨tp, List.mem_cons_self _ _, h3⟩
      · exact Or.inr ⟨tp2, List.mem_cons_of_mem _ hm, he⟩

theorem splitSegments_pts (tps : List (SunPathPoint × Bool)) :
    ∀ s ∈ splitSegments tps, ∀ p ∈ s.1, ∃ tp ∈ tps, p = tp.1 := by
  intro s hs p hp
  unfold splitSegments at hs
  rcases tps with _ | ⟨t1, rest⟩
  · cases hs
  · rcases splitGo_pts rest _ _ hs p hp with h1 | ⟨tp2, hm, he⟩
    · rw [List.mem_singleton] at h1
      exact ⟨t1, List.mem_cons_self _ _, h1⟩
    · exact ⟨tp2, List.mem_cons_of_mem _ hm, he⟩

theorem emitHourSegs_fields (stdL dstL : String) (pos : Bool)
    (top bot : Option SunPathPoint) (allP : List (SunPathPoint × Bool)) :
    ∀ (segs : List (List SunPathPoint × Bool)) (a b : Bool) (l : SunPathLine),
      l ∈ emitHourSegs stdL dstL pos top bot allP segs a b →
      (∃ s ∈ segs, l.points = s.1 ∧ 2 ≤ s.1.length) ∧
      (l.topLabelPoint = none ∨ l.topLabelPoint = top) ∧
      (l.bottomLabelPoint = none ∨ l.bottomLabelPoint = bot) ∧
      (l.allHourPoints = none ∨ l.allHourPoints = some allP) ∧
      l.extraLabelPoints = none ∧ l.midLabelPoint = none ∧
      l.midLabelPointBelow = none ∧ l.dstHourLabels = none := by
  intro segs
  induction segs with
  | nil =>
    intro a b l h
    simp [emitHourSegs] at h
  | cons seg rest ih =>
    intro a b l h
    unfold emitHourSegs at h
    split at h
    · obtain ⟨⟨s, hs, hh⟩, hrest⟩ := ih _ _ _ h
      exact ⟨⟨s, List.mem_cons_of_mem _ hs, hh⟩, hrest⟩
    · rename_i hlen
      split at h
      · rcases List.mem_cons.mp h with h1 | h1
        · subst h1
          refine ⟨⟨seg, List.mem_cons_self _ _, rfl, by omega⟩, Or.inl rfl, Or.inl rfl,
            ?_, rfl, rfl, rfl, rfl⟩
          cases a with
          | true => exact Or.inl (by simp)
          | false => exact Or.inr (by simp)
        · obtain ⟨⟨s, hs, hh⟩, hrest⟩ := ih _ _ _ h1
          exact ⟨⟨s, List.mem_cons_of_mem _ hs, hh⟩, hrest⟩
      · rcases List.mem_cons.mp h with h1 | h1
        · subst h1
          refine ⟨⟨seg, List.mem_cons_self _ _, rfl, by omega⟩, ?_, ?_, ?_, rfl, rfl, rfl, rfl⟩
          · cases b with
            | true => exact Or.inl (by simp)
            | false => exact Or.inr (by simp)
          · cases b with
            | true => exact Or.inl (by simp)
            | false => exact Or.inr (by simp)
          · cases a with
            | true => exact Or.inl (by simp)
            | false => exact Or.inr (by simp)
        · obtain ⟨⟨s, hs, hh⟩, hrest⟩ := ih _ _ _ h1
          exact ⟨⟨s, List.mem_cons_of_mem _ hs, hh⟩, hrest⟩

-- ---- Per-generator emitted-point lemmas ----

theorem generateSolsticeArcs_good (env : Env) (ctx : SunPathContext) :
    ∀ l ∈ generateSolsticeArcs env ctx,
      2 ≤ l.points.length ∧ ∀ p ∈ linePoints l, goodPoint env ctx.latDeg ctx.lonDeg p := by
  intro l hl
  unfold generateSolsticeArcs at hl
  rcases List.mem_append.mp hl with h | h
  · dsimp only at h
    split at h
    · rename_i hlen
      rw [List.mem_singleton] at h
      subst h
      refine ⟨by show 2 ≤ (arcForDate env ctx 5 21).length; omega, ?_⟩
      intro p hp
      simp only [linePoints, Option.toList_none, Option.toList_some, Option.getD_none,
        Option.getD_some, List.map_nil, List.append_nil, List.nil_append, List.mem_append,
        List.mem_map, List.not_mem_nil, false_and, and_false, exists_false, or_false,
        false_or, Option.mem_toList, Option.mem_def] at hp
      rcases hp with (hp | ⟨e, he, hep⟩) | hp
      · exact arcForDate_good env ctx 5 21 p hp
      · rw [← hep]
        exact extraLabelsForDate_good env ctx 5 21 _ _ e he
      · exact midLabelForDate_good env ctx 5 21 p hp
    · exact absurd h (List.not_mem_nil l)
  · dsimp only at h
    split at h
    · rename_i hlen
      rw [List.mem_singleton] at h
      subst h
      refine ⟨by show 2 ≤ (arcForDate env ctx 11 21).length; omega, ?_⟩
      intro p hp
      simp only [linePoints, Option.toList_none, Option.toList_some, Option.getD_none,
        Option.getD_some, List.map_nil, List.append_nil, List.nil_append, List.mem_append,
        List.mem_map, List.not_mem_nil, false_and, and_false, exists_false, or_false,
        false_or, Option.mem_toList, Option.mem_def] at hp
      rcases hp with (hp | ⟨e, he, hep⟩) | hp
      · exact arcForDate_good env ctx 11 21 p hp
      · rw [← hep]
        exact extraLabelsForDate_good env ctx 11 21 _ _ e he
      · exact midLabelForDate_good env ctx 11 21 p hp
    · exact absurd h (List.not_mem_nil l)

theorem generateIntermediateArcs_good (env : Env) (ctx : SunPathContext) :
    ∀ l ∈ generateIntermediateArcs env ctx,
      2 ≤ l.points.length ∧ ∀ p ∈ linePoints l, goodPoint env ctx.latDeg ctx.lonDeg p := by
  intro l hl
  unfold generateIntermediateArcs at hl
  rw [List.mem_flatten] at hl
  obtain ⟨lines, hlines, hm⟩ := hl
  rw [List.mem_map] at hlines
  obtain ⟨k0, _, rfl⟩ := hlines
  dsimp only at hm
  split at hm
  · rename_i hlen
    rw [List.mem_singleton] at hm
    subst hm
    constructor
    · show 2 ≤ (arcForDate env ctx _ _).length
      omega
    · intro p hp
      simp only [linePoints, Option.toList_none, Option.toList_some, Option.getD_none,
        Option.getD_some, List.map_nil, List.append_nil, List.nil_append, List.mem_append,
        List.mem_map, List.not_mem_nil, false_and, and_false, exists_false, or_false,
        false_or, Option.mem_toList, Option.mem_def] at hp
      rcases hp with ((hp | ⟨e, he, hep⟩) | hp) | hp
      · exact arcForDate_good env ctx _ _ p hp
      · rcases he with he2 | he2
        · rw [← hep]
          exact extraLabelsForDate_good env ctx _ _ _ _ e he2
        · rw [← hep]
          exact extraLabelsForDate_good env ctx _ _ _ _ e he2
      · exact midLabelForDate_good env ctx _ _ p hp
      · exact midLabelForDate_good env ctx _ _ p hp
  · exact absurd hm (List.not_mem_nil l)

theorem guarded_some_eq {p q : SunPathPoint}
    (h : (if q.altitude > 0 then some q else none) = some p) :
    0 < p.altitude ∧ p = q := by
  by_cases hq : q.altitude > 0
  · rw [if_pos hq] at h
    injection h with h
    subst h
    exact ⟨hq, rfl⟩
  · rw [if_neg hq] at h
    cases h

theorem hourLinesForHour_good (env : Env) (ctx : SunPathContext)
    (dstT : Option (List DSTTransition)) (clockHour : Nat) :
    ∀ l ∈ hourLinesForHour env ctx dstT clockHour,
      2 ≤ l.points.length ∧ ∀ p ∈ linePoints l, goodPoint env ctx.latDeg ctx.lonDeg p := by
  intro l hl
  unfold hourLinesForHour at hl
  dsimp only at hl
  split at hl
  · cases hl
  · obtain ⟨⟨s, hs, hpts, hslen⟩, htop, hbot, hall, hex, hmid, hmidb, hdst⟩ :=
      emitHourSegs_fields _ _ _ _ _ _ _ _ _ _ hl
    refine ⟨by rw [hpts]; exact hslen, ?_⟩
    intro p hp
    unfold linePoints at hp
    rw [hex, hmid, hmidb, hdst] at hp
    simp only [Option.toList_none, Option.toList_some, Option.getD_none, Option.getD_some,
      List.map_nil, List.append_nil, List.nil_append, List.mem_append, List.mem_map,
      List.not_mem_nil, false_and, and_false, exists_false, or_false, false_or,
      Option.mem_toList, Option.mem_def] at hp
    rcases hp with ((hp | hp) | hp) | ⟨a, ha, hap⟩
    · rw [hpts] at hp
      obtain ⟨tp, htp, rfl⟩ := splitSegments_pts _ s hs p hp
      exact hourTaggedPts_good env ctx dstT clockHour tp htp
    · rcases htop with htop | htop
      · rw [htop] at hp
        cases hp
      · rw [htop] at hp
        obtain ⟨hpos, rfl⟩ := guarded_some_eq hp
        refine ⟨hpos, ?_⟩
        split
        · exact ⟨_, rfl⟩
        · exact ⟨_, rfl⟩
    · rcases hbot with hbot | hbot
      · rw [hbot] at hp
        cases hp
      · rw [hbot] at hp
        obtain ⟨hpos, rfl⟩ := guarded_some_eq hp
        refine ⟨hpos, ?_⟩
        split
        · exact ⟨_, rfl⟩
        · exact ⟨_, rfl⟩
    · rcases hall with hall | hall
      · rw [hall] at ha
        cases ha
      · rw [hall] at ha
        rw [Option.getD_some] at ha
        rw [← hap]
        exact hourTaggedPts_good env ctx dstT clockHour a ha

theorem dstHourLabelFor_good (env : Env) (ctx : SunPathContext) (m0 d : Nat) (springF : Bool) :
    ∀ hl ∈ (List.range 25).filterMap (fun clockHour =>
      let pos := getSunPoint env (dateAtStdHour ctx m0 d clockHour) ctx.latDeg ctx.lonDeg
      if pos.altitude > 0 then
        let afterClockHour : Int :=
          if springF then (clockHour : Int) + jsRound ctx.dstAdj else (clockHour : Int)
        if 0 ≤ afterClockHour ∧ afterClockHour ≤ 24 then
          some ({ point := pos, label := toString afterClockHour ++ ":00" } : DSTHourLabel)
        else none
      else none),
      goodPoint env ctx.latDeg ctx.lonDeg hl.point := by
  intro hl h
  rw [List.mem_filterMap] at h
  obtain ⟨ch, _, hf⟩ := h
  dsimp only at hf
  by_cases hpos : (getSunPoint env (dateAtStdHour ctx m0 d ch) ctx.latDeg ctx.lonDeg).altitude > 0
  · rw [if_pos hpos] at hf
    by_cases hrange : (0 : Int) ≤ (if springF then (ch : Int) + jsRound ctx.dstAdj
        else (ch : Int)) ∧ (if springF then (ch : Int) + jsRound ctx.dstAdj
        else (ch : Int)) ≤ 24
    · rw [if_pos hrange] at hf
      injection hf with hf
      subst hf
      exact ⟨hpos, _, rfl⟩
    · rw [if_neg hrange] at hf
      cases hf
  · rw [if_neg hpos] at hf
    cases hf

theorem generateDSTTransitionLines_good (env : Env) (ctx : SunPathContext)
    (dstT : Option (List DSTTransition)) :
    ∀ l ∈ generateDSTTransitionLines env ctx dstT,
      2 ≤ l.points.length ∧ ∀ p ∈ linePoints l, goodPoint env ctx.latDeg ctx.lonDeg p := by
  intro l hl
  unfold generateDSTTransitionLines at hl
  rcases dstT with _ | ts
  · cases hl
  · rw [List.mem_filterMap] at hl
    obtain ⟨dst, _, hf⟩ := hl
    unfold dstLineFor at hf
    dsimp only at hf
    split at hf
    · rename_i hlen
      split at hf
      · cases hf
        refine ⟨by show 2 ≤ (arcForDate env ctx _ _).length; omega, ?_⟩
        intro p hp
        simp only [linePoints, Option.toList_none, Option.toList_some, Option.getD_none,
          Option.getD_some, List.map_nil, List.append_nil, List.nil_append, List.mem_append,
          List.mem_map, List.not_mem_nil, false_and, and_false, exists_false, or_false,
          false_or, Option.mem_toList, Option.mem_def] at hp
        rcases hp with ((hp | ⟨e, he, hep⟩) | hp) | ⟨a, ha, hap⟩
        · exact arcForDate_good env ctx _ _ p hp
        · rw [← hep]
          exact extraLabelsForDate_good env ctx _ _ _ _ e he
        · exact midLabelForDate_good env ctx _ _ p hp
        · rw [← hap]
          exact dstHourLabelFor_good env ctx ((doyToMonthDay dst.doy ctx.year).1 - 1)
            (doyToMonthDay dst.doy ctx.year).2 true a ha
      · cases hf
        refine ⟨by show 2 ≤ (arcForDate env ctx _ _).length; omega, ?_⟩
        intro p hp
        simp only [linePoints, Option.toList_none, Option.toList_some, Option.getD_none,
          Option.getD_some, List.map_nil, List.append_nil, List.nil_append, List.mem_append,
          List.mem_map, List.not_mem_nil, false_and, and_false, exists_false, or_false,
          false_or, Option.mem_toList, Option.mem_def] at hp
        rcases hp with ((hp | ⟨e, he, hep⟩) | hp) | ⟨a, ha, hap⟩
        · exact arcForDate_good env ctx _ _ p hp
        · rw [← hep]
          exact extraLabelsForDate_good env ctx _ _ _ _ e he
        · exact midLabelForDate_good env ctx _ _ p hp
        · rw [← hap]
          exact dstHourLabelFor_good env ctx ((doyToMonthDay dst.doy ctx.year).1 - 1)
            (doyToMonthDay dst.doy ctx.year).2 false a ha
    · cases hf

-- ---- Master traversal: every emitted point is an above-horizon getSunPoint ----

theorem generateSunPathLines_good (env : Env) (lat lon : ℚ) (year : Nat)
    (dstT : Option (List DSTTransition)) (tz : Option (Int → ℚ)) :
    ∀ l ∈ generateSunPathLines env lat lon year dstT tz,
      2 ≤ l.points.length ∧ ∀ p ∈ linePoints l, goodPoint env lat lon p := by
  intro l hl
  unfold generateSunPathLines at hl
  dsimp only at hl
  simp only [List.append_assoc, List.mem_append] at hl
  rcases hl with h | h | h | h
  · exact generateSolsticeArcs_good env _ l h
  · exact generateIntermediateArcs_good env _ l h
  · unfold generateHourLines at h
    rw [List.mem_flatten] at h
    obtain ⟨lines, hl2, hm⟩ := h
    rw [List.mem_map] at hl2
    obtain ⟨ch, _, rfl⟩ := hl2
    exact hourLinesForHour_good env _ dstT ch l hm
  · exact generateDSTTransitionLines_good env _ dstT l h

-- ---- C3 ----

/-- C3: every `SunPathLine` emitted by `generateSunPathLines` has a points
array of length at least 2, and every point in every emitted line's points
array has altitude strictly greater than 0 (points at or below the horizon
are never included). -/
theorem c3_line_invariants (env : Env) (lat lon : ℚ) (year : Nat)
    (dstT : Option (List DSTTransition)) (tz : Option (Int → ℚ)) (l : SunPathLine)
    (hl : l ∈ generateSunPathLines env lat lon year dstT tz) :
    2 ≤ l.points.length ∧ ∀ p ∈ l.points, 0 < p.altitude := by
  obtain ⟨h2, hpts⟩ := generateSunPathLines_good env lat lon year dstT tz l hl
  refine ⟨h2, fun p hp => ?_⟩
  have hmem : p ∈ linePoints l := by
    unfold linePoints
    exact List.mem_append_left _ (List.mem_append_left _ (List.mem_append_left _
      (List.mem_append_left _ (List.mem_append_left _ (List.mem_append_left _
      (List.mem_append_left _ hp))))))
  exact (hpts p hmem).1

set_option maxRecDepth 100000 in
set_option maxHeartbeats 4000000 in
theorem c3_witness :
    2 ≤ ((generateSunPathLines env0 0 0 2023 none none).headD default).points.length :=
  (c3_line_invariants env0 0 0 2023 none none
    ((generateSunPathLines env0 0 0 2023 none none).headD default)
    (headD_mem _ _ (by with_unfolding_all decide))).1

-- ---- C5 ----

theorem convertAzimuth_bounds (env : Env) (hpi : 0 < env.pi) (az : ℚ)
    (h1 : -env.pi ≤ az) (h2 : az ≤ env.pi) :
    0 ≤ convertAzimuth env az ∧ convertAzimuth env az < 2 * env.pi := by
  unfold convertAzimuth
  dsimp only
  rw [if_neg (by linarith : ¬ (az + env.pi < 0))]
  by_cases hlt : az + env.pi ≥ 2 * env.pi
  · rw [if_pos hlt]
    constructor <;> linarith
  · rw [if_neg hlt]
    constructor <;> linarith

/-- C5: under the hypothesis that the suncalc oracle returns altitude in
[−π/2, π/2] and azimuth in [−π, π], every point carried by an emitted line
has azimuth in [0, 2π) and altitude in (−π/2, π/2] (the azimuth conversion
adds π and renormalizes into [0, 2π); emitted points are above-horizon). -/
theorem c5_point_ranges (env : Env) (lat lon : ℚ) (year : Nat)
    (dstT : Option (List DSTTransition)) (tz : Option (Int → ℚ))
    (hpi : 0 < env.pi)
    (hb : ∀ (t : Int) (la lo : ℚ),
      -(env.pi / 2) ≤ (env.sun t la lo).1 ∧ (env.sun t la lo).1 ≤ env.pi / 2 ∧
      -env.pi ≤ (env.sun t la lo).2 ∧ (env.sun t la lo).2 ≤ env.pi) :
    ∀ l ∈ generateSunPathLines env lat lon year dstT tz, ∀ p ∈ linePoints l,
      (0 ≤ p.azimuth ∧ p.azimuth < 2 * env.pi) ∧
      (-(env.pi / 2) < p.altitude ∧ p.altitude ≤ env.pi / 2) := by
  intro l hl p hp
  obtain ⟨_, hgood⟩ := generateSunPathLines_good env lat lon year dstT tz l hl
  obtain ⟨hpos, t, rfl⟩ := hgood p hp
  unfold getSunPoint at hpos ⊢
  dsimp only at hpos ⊢
  obtain ⟨ha1, ha2, hz1, hz2⟩ := hb t lat lon
  refine ⟨convertAzimuth_bounds env hpi _ hz1 hz2, ?_, ha2⟩
  linarith

set_option maxRecDepth 100000 in
set_option maxHeartbeats 4000000 in
theorem c5_witness :
    0 ≤ (((generateSunPathLines env0 0 0 2023 none none).headD default).points.headD
      default).azimuth := by
  have hne : generateSunPathLines env0 0 0 2023 none none ≠ [] := by
    with_unfolding_all decide
  have hl := headD_mem _ (default : SunPathLine) hne
  have hpne : ((generateSunPathLines env0 0 0 2023 none none).headD default).points ≠ [] := by
    with_unfolding_all decide
  have hp := headD_mem _ (default : SunPathPoint) hpne
  have hp2 : (((generateSunPathLines env0 0 0 2023 none none).headD default).points.headD
      default) ∈ linePoints ((generateSunPathLines env0 0 0 2023 none none).headD default) := by
    unfold linePoints
    exact List.mem_append_left _ (List.mem_append_left _ (List.mem_append_left _
      (List.mem_append_left _ (List.mem_append_left _ (List.mem_append_left _
      (List.mem_append_left _ hp))))))
  exact ((c5_point_ranges env0 0 0 2023 none none (by norm_num [env0])
    (fun t la lo => by norm_num [env0]) _ hl _ hp2).1).1

-- ---- C6: hour-line labels and attachment points ----

/-- The June-21 solstice position at a standard clock hour (the loop's
`junPos`). -/
def junPosAt (env : Env) (ctx : SunPathContext) (clockHour : Nat) : SunPathPoint :=
  getSunPoint env (dateAtStdHour ctx 5 21 clockHour) ctx.latDeg ctx.lonDeg

/-- The December-21 solstice position at a standard clock hour (the loop's
`decPos`). -/
def decPosAt (env : Env) (ctx : SunPathContext) (clockHour : Nat) : SunPathPoint :=
  getSunPoint env (dateAtStdHour ctx 11 21 clockHour) ctx.latDeg ctx.lonDeg

/-- The loop's `topPoint`: whichever solstice position is higher at this hour. -/
def topPointAt (env : Env) (ctx : SunPathContext) (clockHour : Nat) : SunPathPoint :=
  if (junPosAt env ctx clockHour).altitude > (decPosAt env ctx clockHour).altitude
  then junPosAt env ctx clockHour else decPosAt env ctx clockHour

/-- The loop's `bottomPoint`: whichever solstice position is lower at this hour. -/
def bottomPointAt (env : Env) (ctx : SunPathContext) (clockHour : Nat) : SunPathPoint :=
  if (junPosAt env ctx clockHour).altitude > (decPosAt env ctx clockHour).altitude
  then decPosAt env ctx clockHour else junPosAt env ctx clockHour

/-- The standard-time clock label of an hour line. -/
def stdLabelAt (clockHour : Nat) : String := toString clockHour ++ ":00"

/-- The DST-shifted clock label of an hour line. -/
def dstLabelAt (ctx : SunPathContext) (clockHour : Nat) : String :=
  toString ((clockHour : Int) + jsRound ctx.dstAdj) ++ ":00"

theorem emitHourSegs_dstType_no_labels (stdL dstL : String) (pos : Bool)
    (top bot : Option SunPathPoint) (allP : List (SunPathPoint × Bool)) :
    ∀ segs (a b : Bool) l, l ∈ emitHourSegs stdL dstL pos top bot allP segs a b →
      l.type = LineType.hourDst →
      l.labelAbove = none ∧ l.labelBelow = none ∧
      l.topLabelPoint = none ∧ l.bottomLabelPoint = none := by
  intro segs
  induction segs with
  | nil =>
    intro a b l h _
    simp [emitHourSegs] at h
  | cons seg rest ih =>
    intro a b l h ht
    unfold emitHourSegs at h
    split at h
    · exact ih _ _ _ h ht
    · split at h
      · rcases List.mem_cons.mp h with rfl | h1
        · exact ⟨rfl, rfl, rfl, rfl⟩
        · exact ih _ _ _ h1 ht
      · rcases List.mem_cons.mp h with rfl | h1
        · simp at ht
        · exact ih _ _ _ h1 ht

theorem emitHourSegs_labelEmitted_no_labels (stdL dstL : String) (pos : Bool)
    (top bot : Option SunPathPoint) (allP : List (SunPathPoint × Bool)) :
    ∀ segs (a : Bool) l, l ∈ emitHourSegs stdL dstL pos top bot allP segs a true →
      l.labelAbove = none ∧ l.labelBelow = none ∧
      l.topLabelPoint = none ∧ l.bottomLabelPoint = none := by
  intro segs
  induction segs with
  | nil =>
    intro a l h
    simp [emitHourSegs] at h
  | cons seg rest ih =>
    intro a l h
    unfold emitHourSegs at h
    split at h
    · exact ih _ _ h
    · split at h
      · rcases List.mem_cons.mp h with rfl | h1
        · exact ⟨rfl, rfl, rfl, rfl⟩
        · exact ih _ _ h1
      · rcases List.mem_cons.mp h with rfl | h1
        · exact ⟨by simp, by simp, by simp, by simp⟩
        · exact ih _ _ h1

theorem emitHourSegs_arrowsEmitted_none (stdL dstL : String) (pos : Bool)
    (top bot : Option SunPathPoint) (allP : List (SunPathPoint × Bool)) :
    ∀ segs (b : Bool) l, l ∈ emitHourSegs stdL dstL pos top bot allP segs true b →
      l.allHourPoints = none := by
  intro segs
  induction segs with
  | nil =>
    intro b l h
    simp [emitHourSegs] at h
  | cons seg rest ih =>
    intro b l h
    unfold emitHourSegs at h
    split at h
    · exact ih _ _ h
    · split at h
      · rcases List.mem_cons.mp h with rfl | h1
        · simp
        · exact ih _ _ h1
      · rcases List.mem_cons.mp h with rfl | h1
        · simp
        · exact ih _ _ h1

theorem emitHourSegs_first_allPoints (stdL dstL : String) (pos : Bool)
    (top bot : Option SunPathPoint) (allP : List (SunPathPoint × Bool)) :
    ∀ segs (b : Bool),
      (emitHourSegs stdL dstL pos top bot allP segs false b ≠ [] →
        ((emitHourSegs stdL dstL pos top bot allP segs false b).headD default).allHourPoints
          = some allP) ∧
      (∀ l ∈ (emitHourSegs stdL dstL pos top bot allP segs false b).tail,
        l.allHourPoints = none) := by
  intro segs
  induction segs with
  | nil =>
    intro b
    exact ⟨fun h => absurd rfl h, by intro l h; simp [emitHourSegs] at h⟩
  | cons seg rest ih =>
    intro b
    unfold emitHourSegs
    split
    · exact ih _
    · split
      · refine ⟨fun _ => by simp, ?_⟩
        intro l hl
        rw [List.tail_cons] at hl
        exact emitHourSegs_arrowsEmitted_none stdL dstL pos top bot allP rest _ l hl
      · refine ⟨fun _ => by simp, ?_⟩
        intro l hl
        rw [List.tail_cons] at hl
        exact emitHourSegs_arrowsEmitted_none stdL dstL pos top bot allP rest _ l hl

theorem emitHourSegs_first_hour_labels (stdL dstL : String) (pos : Bool)
    (top bot : Option SunPathPoint) (allP : List (SunPathPoint × Bool)) :
    ∀ segs (a : Bool),
      (((emitHourSegs stdL dstL pos top bot allP segs a false).filter isHourLine) ≠ [] →
        ((((emitHourSegs stdL dstL pos top bot allP segs a false).filter
            isHourLine).headD default).labelAbove = some (if pos then dstL else stdL) ∧
         (((emitHourSegs stdL dstL pos top bot allP segs a false).filter
            isHourLine).headD default).labelBelow = some stdL ∧
         (((emitHourSegs stdL dstL pos top bot allP segs a false).filter
            isHourLine).headD default).topLabelPoint = top ∧
         (((emitHourSegs stdL dstL pos top bot allP segs a false).filter
            isHourLine).headD default).bottomLabelPoint = bot)) ∧
      (∀ l ∈ ((emitHourSegs stdL dstL pos top bot allP segs a false).filter isHourLine).tail,
        l.labelAbove = none ∧ l.labelBelow = none ∧
        l.topLabelPoint = none ∧ l.bottomLabelPoint = none) := by
  intro segs
  induction segs with
  | nil =>
    intro a
    exact ⟨fun h => absurd rfl h, by intro l h; simp [emitHourSegs] at h⟩
  | cons seg rest ih =>
    intro a
    unfold emitHourSegs
    split
    · exact ih _
    · split
      · rw [List.filter_cons]
        rw [if_neg (by simp [isHourLine])]
        exact ih _
      · rw [List.filter_cons]
        rw [if_pos (by simp [isHourLine])]
        refine ⟨fun _ => ⟨by simp, by simp, by simp, by simp⟩, ?_⟩
        intro l hl
        rw [List.tail_cons] at hl
        exact emitHourSegs_labelEmitted_no_labels stdL dstL pos top bot allP rest _ l
          (List.mem_of_mem_filter hl)

/-- C6: for every clock hour whose sweep keeps at least 2 above-horizon
points: hour labels and solstice-endpoint markers (labelAbove, labelBelow,
topLabelPoint, bottomLabelPoint) are attached only to the first standard-time
('hour') segment (never to 'hour-dst' segments, never to later 'hour'
segments); the full tagged point list is attached only to the first segment
emitted overall; labelAbove is the DST-shifted label when the DST adjustment
is positive and the standard label otherwise, labelBelow is always the
standard label; and the top/bottom marker points are chosen by comparing the
computed June-21 and December-21 altitudes at that hour, the higher being the
top (ties go to the December point, per the strict comparison in source). -/
theorem c6_hour_label_attachment (env : Env) (ctx : SunPathContext)
    (dstT : Option (List DSTTransition)) (clockHour : Nat)
    (h2 : 2 ≤ (hourTaggedPts env ctx dstT clockHour).length) :
    (∀ l ∈ hourLinesForHour env ctx dstT clockHour, l.type = LineType.hourDst →
        l.labelAbove = none ∧ l.labelBelow = none ∧
        l.topLabelPoint = none ∧ l.bottomLabelPoint = none) ∧
    (((hourLinesForHour env ctx dstT clockHour).filter isHourLine) ≠ [] →
      ((((hourLinesForHour env ctx dstT clockHour).filter isHourLine).headD default).labelAbove
          = some (if ctx.dstAdj > 0 then dstLabelAt ctx clockHour else stdLabelAt clockHour) ∧
       (((hourLinesForHour env ctx dstT clockHour).filter isHourLine).headD default).labelBelow
          = some (stdLabelAt clockHour) ∧
       (((hourLinesForHour env ctx dstT clockHour).filter isHourLine).headD default).topLabelPoint
          = (if (topPointAt env ctx clockHour).altitude > 0
             then some (topPointAt env ctx clockHour) else none) ∧
       (((hourLinesForHour env ctx dstT clockHour).filter
            isHourLine).headD default).bottomLabelPoint
          = (if (bottomPointAt env ctx clockHour).altitude > 0
             then some (bottomPointAt env ctx clockHour) else none))) ∧
    (∀ l ∈ ((hourLinesForHour env ctx dstT clockHour).filter isHourLine).tail,
        l.labelAbove = none ∧ l.labelBelow = none ∧
        l.topLabelPoint = none ∧ l.bottomLabelPoint = none) ∧
    (hourLinesForHour env ctx dstT clockHour ≠ [] →
      ((hourLinesForHour env ctx dstT clockHour).headD default).allHourPoints
        = some (hourTaggedPts env ctx dstT clockHour)) ∧
    (∀ l ∈ (hourLinesForHour env ctx dstT clockHour).tail, l.allHourPoints = none) ∧
    ((decPosAt env ctx clockHour).altitude < (junPosAt env ctx clockHour).altitude →
      topPointAt env ctx clockHour = junPosAt env ctx clockHour ∧
      bottomPointAt env ctx clockHour = decPosAt env ctx clockHour) ∧
    ((junPosAt env ctx clockHour).altitude ≤ (decPosAt env ctx clockHour).altitude →
      topPointAt env ctx clockHour = decPosAt env ctx clockHour ∧
      bottomPointAt env ctx clockHour = junPosAt env ctx clockHour) := by
  have heq : hourLinesForHour env ctx dstT clockHour
      = emitHourSegs (stdLabelAt clockHour) (dstLabelAt ctx clockHour)
          (decide (ctx.dstAdj > 0))
          (if (topPointAt env ctx clockHour).altitude > 0
            then some (topPointAt env ctx clockHour) else none)
          (if (bottomPointAt env ctx clockHour).altitude > 0
            then some (bottomPointAt env ctx clockHour) else none)
          (hourTaggedPts env ctx dstT clockHour)
          (splitSegments (hourTaggedPts env ctx dstT clockHour)) false false := by
    unfold hourLinesForHour
    rw [if_neg (by omega)]
    rfl
  rw [heq]
  refine ⟨?_, ?_, ?_, ?_, ?_, ?_, ?_⟩
  · intro l hl ht
    exact emitHourSegs_dstType_no_labels _ _ _ _ _ _ _ _ _ l hl ht
  · intro hne
    have h := (emitHourSegs_first_hour_labels _ _ _ _ _ _ _ false).1 hne
    refine ⟨?_, h.2.1, h.2.2.1, h.2.2.2⟩
    rw [h.1]
    by_cases hd : ctx.dstAdj > 0
    · simp [hd]
    · simp [hd]
  · intro l hl
    exact (emitHourSegs_first_hour_labels _ _ _ _ _ _ _ false).2 l hl
  · intro hne
    exact (emitHourSegs_first_allPoints _ _ _ _ _ _ _ false).1 hne
  · intro l hl
    exact (emitHourSegs_first_allPoints _ _ _ _ _ _ _ false).2 l hl
  · intro hlt
    unfold topPointAt bottomPointAt
    rw [if_pos hlt, if_pos hlt]
    exact ⟨rfl, rfl⟩
  · intro hle
    unfold topPointAt bottomPointAt
    rw [if_neg (not_lt.mpr hle), if_neg (not_lt.mpr hle)]
    exact ⟨rfl, rfl⟩

set_option maxRecDepth 100000 in
set_option maxHeartbeats 4000000 in
theorem c6_witness :
    ((hourLinesForHour env0 ctx0 none 12).headD default).allHourPoints
      = some (hourTaggedPts env0 ctx0 none 12) :=
  (c6_hour_label_attachment env0 ctx0 none 12
      (by with_unfolding_all decide)).2.2.2.1 (by with_unfolding_all decide)

-- ---- C7: DST transition-day arcs ----

theorem dstLineFor_isSome (env : Env) (ctx : SunPathContext) (dst : DSTTransition) :
    (dstLineFor env ctx dst).isSome = dstArcQualifies env ctx dst := by
  unfold dstLineFor dstArcQualifies
  dsimp only
  split
  · rename_i h
    split
    · simp [h]
    · simp [h]
  · rename_i h
    simp [h]

theorem dstLineFor_fields (env : Env) (ctx : SunPathContext) (dst : DSTTransition)
    (l : SunPathLine) (hf : dstLineFor env ctx dst = some l) :
    l.type = LineType.dst ∧
    l.points = arcForDate env ctx ((doyToMonthDay dst.doy ctx.year).1 - 1)
      (doyToMonthDay dst.doy ctx.year).2 ∧
    l.dstHourLabels = some ((List.range 25).filterMap (fun clockHour =>
      let pos := getSunPoint env (dateAtStdHour ctx ((doyToMonthDay dst.doy ctx.year).1 - 1)
        (doyToMonthDay dst.doy ctx.year).2 clockHour) ctx.latDeg ctx.lonDeg
      if pos.altitude > 0 then
        let afterClockHour : Int :=
          if dst.springForward then (clockHour : Int) + jsRound ctx.dstAdj
          else (clockHour : Int)
        if 0 ≤ afterClockHour ∧ afterClockHour ≤ 24 then
          some ({ point := pos, label := toString afterClockHour ++ ":00" } : DSTHourLabel)
        else none
      else none)) ∧
    (dst.springForward = true →
      l.labelBelow = some (toString dst.month ++ "/" ++ toString dst.day) ∧
      l.labelAbove = none ∧ l.dstHourLabelsPosition = some LabelPos.above) ∧
    (dst.springForward = false →
      l.labelAbove = some (toString dst.month ++ "/" ++ toString dst.day) ∧
      l.labelBelow = none ∧ l.dstHourLabelsPosition = some LabelPos.below) := by
  unfold dstLineFor at hf
  dsimp only at hf
  split at hf
  · rename_i hlen
    cases hsf : dst.springForward with
    | true =>
      rw [hsf] at hf
      simp only [if_true] at hf
      cases hf
      simp [hsf]
    | false =>
      rw [hsf] at hf
      simp only [Bool.false_eq_true, if_false] at hf
      cases hf
      simp [hsf]
  · cases hf

/-- C7: every supplied DST transition whose day arc keeps at least 2
above-horizon points yields exactly one 'dst' line; its hour labels show
`hour + round(dstAdjustment)` on a spring-forward day and the unshifted hour
otherwise, labels whose clock value falls outside [0, 24] are dropped,
spring-forward arcs carry the date label below with hour labels positioned
above, and fall-back arcs carry the date label above with hour labels
positioned below. -/
theorem c7_dst_transition_arcs (env : Env) (ctx : SunPathContext)
    (ts : List DSTTransition) (dst : DSTTransition) (hm : dst ∈ ts)
    (harc : 1 < (arcForDate env ctx ((doyToMonthDay dst.doy ctx.year).1 - 1)
      (doyToMonthDay dst.doy ctx.year).2).length) :
    ((generateDSTTransitionLines env ctx (some ts)).length
        = (ts.filter (dstArcQualifies env ctx)).length) ∧
    (∀ l ∈ generateDSTTransitionLines env ctx (some ts), l.type = LineType.dst) ∧
    (∃ l ∈ generateDSTTransitionLines env ctx (some ts),
      l.points = arcForDate env ctx ((doyToMonthDay dst.doy ctx.year).1 - 1)
        (doyToMonthDay dst.doy ctx.year).2 ∧
      l.dstHourLabels = some ((List.range 25).filterMap (fun clockHour =>
        let pos := getSunPoint env (dateAtStdHour ctx ((doyToMonthDay dst.doy ctx.year).1 - 1)
          (doyToMonthDay dst.doy ctx.year).2 clockHour) ctx.latDeg ctx.lonDeg
        if pos.altitude > 0 then
          let afterClockHour : Int :=
            if dst.springForward then (clockHour : Int) + jsRound ctx.dstAdj
            else (clockHour : Int)
          if 0 ≤ afterClockHour ∧ afterClockHour ≤ 24 then
            some ({ point := pos, label := toString afterClockHour ++ ":00" } : DSTHourLabel)
          else none
        else none)) ∧
      (dst.springForward = true →
        l.labelBelow = some (toString dst.month ++ "/" ++ toString dst.day) ∧
        l.labelAbove = none ∧ l.dstHourLabelsPosition = some LabelPos.above) ∧
      (dst.springForward = false →
        l.labelAbove = some (toString dst.month ++ "/" ++ toString dst.day) ∧
        l.labelBelow = none ∧ l.dstHourLabelsPosition = some LabelPos.below)) := by
  refine ⟨?_, ?_, ?_⟩
  · show (ts.filterMap (dstLineFor env ctx)).length = _
    rw [length_filterMap_eq_countP]
    rw [List.countP_congr (fun a _ => by rw [dstLineFor_isSome env ctx a])]
    rw [List.countP_eq_length_filter]
  · intro l hl
    rw [show generateDSTTransitionLines env ctx (some ts)
      = ts.filterMap (dstLineFor env ctx) from rfl, List.mem_filterMap] at hl
    obtain ⟨d, _, hf⟩ := hl
    exact (dstLineFor_fields env ctx d l hf).1
  · have hs : (dstLineFor env ctx dst).isSome = true := by
      rw [dstLineFor_isSome]
      unfold dstArcQualifies
      exact decide_eq_true harc
    obtain ⟨l, hf⟩ := Option.isSome_iff_exists.mp hs
    obtain ⟨_, hpts, hlabels, hspring, hfall⟩ := dstLineFor_fields env ctx dst l hf
    exact ⟨l, List.mem_filterMap.mpr ⟨dst, hm, hf⟩, hpts, hlabels, hspring, hfall⟩

def ts7 : List DSTTransition :=
  [{ doy := 100, month := 4, day := 10, springForward := true, offsetChangeHours := 1 }]

set_option maxRecDepth 100000 in
set_option maxHeartbeats 4000000 in
theorem c7_witness :
    (generateDSTTransitionLines env0 ctx0 (some ts7)).length
      = (ts7.filter (dstArcQualifies env0 ctx0)).length :=
  (c7_dst_transition_arcs env0 ctx0 ts7
    { doy := 100, month := 4, day := 10, springForward := true, offsetChangeHours := 1 }
    (by decide) (by with_unfolding_all decide)).1

-- ---- C9: degenerate transition lists ----

theorem hourTagged_false_of (env : Env) (ctx : SunPathContext)
    (dstT : Option (List DSTTransition)) (clockHour : Nat)
    (hf : ∀ doy, isDSTDay (daysInYearOf ctx.year) dstT doy = false) :
    ∀ tp ∈ hourTaggedPts env ctx dstT clockHour, tp.2 = false := by
  intro tp htp
  unfold hourTaggedPts at htp
  rw [List.mem_filterMap] at htp
  obtain ⟨doy, _, hff⟩ := htp
  dsimp only at hff
  split at hff
  · cases hff
    exact hf doy
  · cases hff

theorem splitSegments_false_of (env : Env) (ctx : SunPathContext)
    (dstT : Option (List DSTTransition)) (clockHour : Nat)
    (hf : ∀ doy, isDSTDay (daysInYearOf ctx.year) dstT doy = false) :
    ∀ s ∈ splitSegments (hourTaggedPts env ctx dstT clockHour), s.2 = false := by
  intro s hs
  unfold splitSegments at hs
  rcases htp : hourTaggedPts env ctx dstT clockHour with _ | ⟨tp, rest⟩
  · rw [htp] at hs
    cases hs
  · rw [htp] at hs
    rcases splitGo_snd rest _ _ hs with h1 | ⟨tp2, hm2, he⟩
    · rw [h1]
      exact hourTagged_false_of env ctx dstT clockHour hf tp (htp ▸ List.mem_cons_self _ _)
    · rw [he]
      exact hourTagged_false_of env ctx dstT clockHour hf tp2
        (htp ▸ List.mem_cons_of_mem _ hm2)

theorem generateHourLines_all_std_of (env : Env) (ctx : SunPathContext)
    (dstT : Option (List DSTTransition))
    (hf : ∀ doy, isDSTDay (daysInYearOf ctx.year) dstT doy = false) :
    ∀ l ∈ generateHourLines env ctx dstT, l.type = LineType.hour := by
  intro l h
  unfold generateHourLines at h
  rw [List.mem_flatten] at h
  obtain ⟨lines, hl, hm⟩ := h
  rw [List.mem_map] at hl
  obtain ⟨ch, _, rfl⟩ := hl
  unfold hourLinesForHour at hm
  dsimp only at hm
  split at hm
  · cases hm
  · exact emitHourSegs_all_std _ _ _ _ _ _ _ _ _ _
      (splitSegments_false_of env ctx dstT ch hf) hm

/-- C9: a dstTransitions list that is non-empty but has fewer than two
entries, or lacks a spring-forward entry, or lacks a fall-back entry, tags no
day as DST and produces no 'hour-dst' line, while one 'dst' arc is still
emitted for each supplied transition whose day keeps at least two
above-horizon points. -/
theorem c9_degenerate_transitions (env : Env) (ctx : SunPathContext)
    (ts : List DSTTransition) (_hne : ts ≠ [])
    (hdeg : ts.length < 2 ∨ ts.find? (fun t => t.springForward) = none ∨
      ts.find? (fun t => !t.springForward) = none) :
    (∀ doy, isDSTDay (daysInYearOf ctx.year) (some ts) doy = false) ∧
    (∀ l ∈ generateHourLines env ctx (some ts), l.type ≠ LineType.hourDst) ∧
    ((generateHourLines env ctx (some ts)).all isNotHourDst = true) ∧
    ((generateDSTTransitionLines env ctx (some ts)).length
      = (ts.filter (dstArcQualifies env ctx)).length) ∧
    (∀ l ∈ generateDSTTransitionLines env ctx (some ts), l.type = LineType.dst) := by
  have hfalse : ∀ doy, isDSTDay (daysInYearOf ctx.year) (some ts) doy = false := by
    intro doy
    rcases hdeg with h | h | h
    · have hn : ¬ (ts.length ≥ 2) := by omega
      simp [isDSTDay, hn]
    · simp [isDSTDay, h]
    · rcases hsp : ts.find? (fun t => t.springForward) with _ | sp
      · simp [isDSTDay, hsp]
      · simp [isDSTDay, hsp, h]
  have hstd := generateHourLines_all_std_of env ctx (some ts) hfalse
  refine ⟨hfalse, ?_, ?_, ?_, ?_⟩
  · intro l hl
    rw [hstd l hl]
    simp
  · rw [List.all_eq_true]
    intro l hl
    unfold isNotHourDst
    rw [hstd l hl]
    simp
  · show (ts.filterMap (dstLineFor env ctx)).length = _
    rw [length_filterMap_eq_countP]
    rw [List.countP_congr (fun a _ => by rw [dstLineFor_isSome env ctx a])]
    rw [List.countP_eq_length_filter]
  · intro l hl
    rw [show generateDSTTransitionLines env ctx (some ts)
      = ts.filterMap (dstLineFor env ctx) from rfl, List.mem_filterMap] at hl
    obtain ⟨d, _, hff⟩ := hl
    exact (dstLineFor_fields env ctx d l hff).1

theorem c9_witness :
    (generateHourLines env0 ctx0 (some ts7)).all isNotHourDst = true :=
  (c9_degenerate_transitions env0 ctx0 ts7 (by decide)
    (Or.inl (by decide))).2.2.1
